import Mathlib

/-!
Shallow embedding of the authoritative game server in `src/server.js`
(GodfreyDev/ChatGame).  Player, Item and Enemy registries (JavaScript
objects keyed by unique id) are modelled as lists of records carrying
their own id; JavaScript key lookup becomes a first-match search and
`delete obj[k]` becomes a filter.  World coordinates and health values
(JavaScript numbers) are modelled over the exact integers; all the
comparisons the source performs on `Math.hypot` distances are monotone
in the squared distance, so distance tests are embedded as integer
comparisons of squared distances.  AI timers (fractional seconds) are
modelled over the rationals.  Event handlers that can dereference an
absent record (a thrown TypeError in JavaScript) return `Option`, with
`none` standing for the uncaught exception; handlers that cannot throw
return the new state and the list of emitted messages directly.
Randomly generated values (reward codes, AI rolls) and the wall clock
(`Date.now()`) are passed to the embedded functions as parameters.
-/

namespace ChatGame

/-- The `TILE_SIZE` constant from server.js. -/
def TILE_SIZE : Int := 64

/-- An axis-aligned rectangle, as used for the safe zones. -/
structure Zone where
  x : Int
  y : Int
  width : Int
  height : Int
deriving DecidableEq

/-- The `safeZones` array of server.js: one 30x30-tile zone at tile (25,25). -/
def safeZones : List Zone :=
  [{ x := 25 * TILE_SIZE, y := 25 * TILE_SIZE,
     width := 30 * TILE_SIZE, height := 30 * TILE_SIZE }]

/-- The `isInSafeZone(x, y)` check: membership in any safe zone, bounds inclusive. -/
def isInSafeZone (x y : Int) : Bool :=
  safeZones.any fun zone =>
    decide (zone.x ≤ x) && decide (x ≤ zone.x + zone.width) &&
    decide (zone.y ≤ y) && decide (y ≤ zone.y + zone.height)

/-- Squared Euclidean distance.  The source compares `Math.hypot` values
against each other and against the constants 500 and 50; squaring both
sides is an exact embedding of those comparisons. -/
def distSq (x1 y1 x2 y2 : Int) : Int :=
  (x1 - x2) ^ 2 + (y1 - y2) ^ 2

/-- A world or inventory item, as built by `generateItems`.  The source
stores only the attribute relevant to the type (`damage` for sword and
staff, `healing` for potion, `defense` for shield); the embedding carries
all three fields, defaulting the unset ones to 0, which the server code
never reads. -/
structure Item where
  id : String
  x : Int
  y : Int
  type : String
  damage : Int := 0
  healing : Int := 0
  defense : Int := 0
deriving DecidableEq

/-- The client-supplied `weapon` object of an attack payload.  Its
`damage` field may be absent. -/
structure WeaponPayload where
  damage : Option Int
deriving DecidableEq

/-- The payload of an `attack` event. -/
structure AttackPayload where
  targetId : String
  weapon : Option WeaponPayload
deriving DecidableEq

/-- The payload of a `playerMovement` event. -/
structure MovementPayload where
  x : Int
  y : Int
  direction : Int
  frameIndex : Int
  health : Int
deriving DecidableEq

/-- The `pendingTrade` record stored on the sending player by the
`tradeRequest` handler.  Indices come from the client and may be any
number; out-of-range and negative indices fail to resolve. -/
structure PendingTrade where
  recipientId : String
  offeredItemIndex : Int
  requestedItemIndex : Int
deriving DecidableEq

/-- A connected player record, as created on `connection`. -/
structure Player where
  id : String
  name : String
  x : Int
  y : Int
  direction : Int
  moving : Bool
  width : Int := 64
  height : Int := 64
  health : Int
  maxHealth : Int
  inventory : List Item
  equippedItem : Option Nat := none
  copper : Int
  frameIndex : Int := 0
  pendingTrade : Option PendingTrade := none
deriving DecidableEq

/-- The `aiState` sub-record of an enemy. -/
structure AIState where
  action : String
  timer : Rat
  direction : Int
deriving DecidableEq

/-- A server-side enemy record, as created by `initializeEnemies`. -/
structure Enemy where
  id : String
  x : Int
  y : Int
  width : Int := 64
  height : Int := 64
  health : Int
  maxHealth : Int
  speed : Int := 100
  targetPlayerId : Option String
  direction : Int := 0
  frameIndex : Int := 0
  frameCount : Int := 8
  aiState : AIState
  attackCooldown : Option Int := none
deriving DecidableEq

/-- The shared mutable server state: the `players`, `items` and `enemies`
registries.  JavaScript object keys are unique; the embedding states
that as a `Nodup` hypothesis where a proof needs it. -/
structure ServerState where
  players : List Player
  items : List Item
  enemies : List Enemy
deriving DecidableEq

/-- Server-to-client messages that the embedded handlers emit. -/
inductive GEvent where
  | itemPickedUp (playerId itemId : String) (item : Item)
  | playerMoved (playerId : String) (x y direction frameIndex health : Int)
  | playerDamaged (playerId : String) (health : Int)
  | playerKilled (playerId : String)
  | playerDisconnected (playerId : String)
  | enemyKilled (enemyId : String)
  | enemyAttack (enemyId : String)
  | updateCopper (copper : Int)
  | rewardCode (code : String)
  | attackError (msg : String)
  | tradeSuccess (newInventory : List Item)
  | tradeError (msg : String)
deriving DecidableEq

/-- An emitted message together with its destination: `io.emit`
(broadcast), `socket.broadcast.emit` (everyone but the sender),
`io.to(sid).emit` / `socket.emit` (one connection), or a forced
`socket.disconnect(true)`. -/
inductive Emit where
  | broadcast (e : GEvent)
  | broadcastExcept (sid : String) (e : GEvent)
  | toConn (sid : String) (e : GEvent)
  | forceDisconnect (sid : String)
deriving DecidableEq

/-- Lookup `players[pid]`: first record with the given id. -/
def findPlayer (s : ServerState) (pid : String) : Option Player :=
  s.players.find? fun p => p.id == pid

/-- Lookup `items[iid]`. -/
def findItem (s : ServerState) (iid : String) : Option Item :=
  s.items.find? fun it => it.id == iid

/-- Lookup `enemies[eid]`. -/
def findEnemy (s : ServerState) (eid : String) : Option Enemy :=
  s.enemies.find? fun e => e.id == eid

/-- In-place mutation of the record with the given id. -/
def updatePlayer (ps : List Player) (pid : String) (f : Player → Player) :
    List Player :=
  ps.map fun p => if p.id == pid then f p else p

/-- Deletion `delete players[pid]`. -/
def removePlayer (ps : List Player) (pid : String) : List Player :=
  ps.filter fun p => p.id != pid

/-- Deletion `delete items[iid]`. -/
def removeItem (its : List Item) (iid : String) : List Item :=
  its.filter fun it => it.id != iid

/-- Deletion `delete enemies[eid]`. -/
def removeEnemy (es : List Enemy) (eid : String) : List Enemy :=
  es.filter fun e => e.id != eid

/-- In-place mutation of the enemy with the given id. -/
def updateEnemy (es : List Enemy) (eid : String) (f : Enemy → Enemy) :
    List Enemy :=
  es.map fun e => if e.id == eid then f e else e

/-- Reading `inv[i]` for a client-supplied numeric index: negative or
out-of-range indices yield `undefined`. -/
def getSlot (inv : List Item) (i : Int) : Option Item :=
  if i < 0 then none else inv.get? i.toNat

/-- Writing `inv[i] = x` for an index known to be in range (the source only
assigns to slots it has just read successfully). -/
def setSlot (inv : List Item) (i : Int) (x : Item) : List Item :=
  if i < 0 then inv else inv.set i.toNat x

/-- The damage of an attack payload, server.js lines 500-503:
`let damage = 10; if (weapon && weapon.damage) damage = weapon.damage;`.
JavaScript truthiness of the number means a present damage of 0 keeps
the default 10. -/
def baseDamage (weapon : Option WeaponPayload) : Int :=
  match weapon with
  | some w =>
    match w.damage with
    | some d => if d = 0 then 10 else d
    | none => 10
  | none => 10

/-- Shield reduction, server.js lines 520-524 (same rule at 374-378):
the first item of type shield anywhere in the inventory reduces the
damage by its defense, floored at 0. -/
def applyShield (inv : List Item) (damage : Int) : Int :=
  match inv.find? (fun it => it.type == "shield") with
  | some shield => max 0 (damage - shield.defense)
  | none => damage

/-- The `playerMovement` handler, server.js lines 443-461: overwrite the
client-reported fields (health included, unvalidated) and rebroadcast. -/
def playerMovement (s : ServerState) (sid : String) (d : MovementPayload) :
    ServerState × List Emit :=
  match findPlayer s sid with
  | some _ =>
    ({ s with players := updatePlayer s.players sid fun p =>
        { p with x := d.x, y := d.y, direction := d.direction,
                 frameIndex := d.frameIndex, health := d.health } },
     [Emit.broadcastExcept sid
        (GEvent.playerMoved sid d.x d.y d.direction d.frameIndex d.health)])
  | none => (s, [])

/-- The `pickupItem` handler, server.js lines 486-493.  When the item is
present the source dereferences `players[socket.id].inventory` without a
guard; an absent player record is a thrown TypeError, modelled as
`none`.  No position of the player or the item is ever consulted. -/
def pickupItem (s : ServerState) (sid : String) (itemId : String) :
    Option (ServerState × List Emit) :=
  match findItem s itemId with
  | some item =>
    match findPlayer s sid with
    | some _ =>
      some ({ s with
          players := updatePlayer s.players sid fun p =>
            { p with inventory := p.inventory ++ [item] },
          items := removeItem s.items itemId },
        [Emit.broadcast (GEvent.itemPickedUp sid itemId item)])
    | none => none
  | none => some (s, [])

/-- The `attack` handler, server.js lines 496-559.  `code` stands for
the value of `generateRewardCode()` (random in the source).  The
attacker record is dereferenced unguarded (`attacker.x`), so an absent
attacker is a thrown TypeError, modelled as `none`. -/
def attack (s : ServerState) (sid : String) (data : AttackPayload)
    (code : String) : Option (ServerState × List Emit) :=
  match findPlayer s sid with
  | none => none
  | some attacker =>
    let damage := baseDamage data.weapon
    if isInSafeZone attacker.x attacker.y then
      some (s, [Emit.toConn sid
        (GEvent.attackError "You cannot attack from a safe zone.")])
    else
      match findPlayer s data.targetId with
      | some target =>
        if isInSafeZone target.x target.y then
          some (s, [Emit.toConn sid
            (GEvent.attackError "You cannot attack a player in a safe zone.")])
        else
          let damage := applyShield target.inventory damage
          let newHealth := target.health - damage
          if newHealth ≤ 0 then
            some ({ s with players := removePlayer s.players data.targetId },
              [Emit.broadcast (GEvent.playerKilled data.targetId),
               Emit.toConn data.targetId
                 (GEvent.playerDamaged data.targetId 0),
               Emit.broadcast (GEvent.playerDisconnected data.targetId),
               Emit.forceDisconnect data.targetId])
          else
            let ps2 := updatePlayer s.players data.targetId fun p =>
              { p with health := newHealth }
            some ({ s with players := ps2 },
              [Emit.broadcast
                (GEvent.playerDamaged data.targetId newHealth)])
      | none =>
        match findEnemy s data.targetId with
        | some enemy =>
          let newHealth := enemy.health - damage
          if newHealth ≤ 0 then
            let ps2 := updatePlayer s.players sid fun p =>
              { p with copper := p.copper + 10 }
            let es2 := removeEnemy s.enemies data.targetId
            some ({ s with players := ps2, enemies := es2 },
              [Emit.toConn sid (GEvent.updateCopper (attacker.copper + 10)),
               Emit.broadcast (GEvent.enemyKilled data.targetId),
               Emit.toConn sid (GEvent.rewardCode code)])
          else
            let es2 := updateEnemy s.enemies data.targetId fun e =>
              { e with health := newHealth }
            some ({ s with enemies := es2 }, [])
        | none => some (s, [])

/-- The inventory of a player as the trade handler reads it back for the
`tradeSuccess` payloads. -/
def invOf (s : ServerState) (pid : String) : List Item :=
  match findPlayer s pid with
  | some p => p.inventory
  | none => []

/-- The `acceptTrade` handler, server.js lines 591-620.  The two slot
assignments are sequential mutations of live records, so the embedding
threads the state through both updates (this matters when sender and
recipient are the same connection).  On the stale-slot failure path the
source notifies both parties but does not delete `sender.pendingTrade`. -/
def acceptTrade (s : ServerState) (recipientId senderId : String) :
    ServerState × List Emit :=
  match findPlayer s senderId, findPlayer s recipientId with
  | some sender, some recipient =>
    match sender.pendingTrade with
    | some pt =>
      if pt.recipientId == recipientId then
        match getSlot sender.inventory pt.offeredItemIndex,
              getSlot recipient.inventory pt.requestedItemIndex with
        | some offered, some requested =>
          let ps1 := updatePlayer s.players senderId fun p =>
            { p with
              inventory := setSlot p.inventory pt.offeredItemIndex requested }
          let s1 := { s with players := ps1 }
          let ps2 := updatePlayer s1.players recipientId fun p =>
            { p with
              inventory := setSlot p.inventory pt.requestedItemIndex offered }
          let s2 := { s1 with players := ps2 }
          let ps3 := updatePlayer s2.players senderId fun p =>
            { p with pendingTrade := none }
          let s3 := { s2 with players := ps3 }
          (s3, [Emit.toConn senderId (GEvent.tradeSuccess (invOf s2 senderId)),
                Emit.toConn recipientId
                  (GEvent.tradeSuccess (invOf s2 recipientId))])
        | _, _ =>
          (s, [Emit.toConn senderId
                 (GEvent.tradeError "Trade failed. Items no longer available."),
               Emit.toConn recipientId
                 (GEvent.tradeError "Trade failed. Items no longer available.")])
      else
        (s, [Emit.toConn recipientId
               (GEvent.tradeError "No valid trade to accept.")])
    | none =>
      (s, [Emit.toConn recipientId
             (GEvent.tradeError "No valid trade to accept.")])
  | _, _ =>
    (s, [Emit.toConn recipientId
           (GEvent.tradeError "No valid trade to accept.")])

/-- The `disconnect` handler, server.js lines 636-640: delete the player
record (inventory and all) and broadcast the departure. -/
def handleDisconnect (s : ServerState) (sid : String) :
    ServerState × List Emit :=
  ({ s with players := removePlayer s.players sid },
   [Emit.broadcast (GEvent.playerDisconnected sid)])

/-- The random rolls consumed by one enemy AI transition when the idle
timer has expired: `actions[floor(random*2)]`, `random()*2+1` seconds,
and a cardinal direction `floor(random*4)`. -/
structure AIRand where
  action : String
  timer : Rat
  direction : Int
deriving DecidableEq

/-- One step of the nearest-player scan of server.js lines 294-302:
keep the strictly closer candidate, so the earliest player wins ties
(`minDistance` starts at Infinity, hence the first player always
replaces an empty accumulator). -/
def nearestStep (ex ey : Int) (acc : Option Player) (p : Player) :
    Option Player :=
  match acc with
  | none => some p
  | some q =>
    if distSq p.x p.y ex ey < distSq q.x q.y ex ey then some p else some q

/-- The nearest-player scan of server.js lines 294-302. -/
def nearestPlayer (ps : List Player) (ex ey : Int) : Option Player :=
  ps.foldl (nearestStep ex ey) none

/-- The timer-expiry branch of the AI transition, server.js lines
308-315: pick a fresh random action, timer and direction, and clear the
target. -/
def aiTimerBranch (e : Enemy) (rand : AIRand) : Enemy :=
  if e.aiState.timer ≤ 0 then
    { e with
      aiState := { action := rand.action, timer := rand.timer,
                   direction := rand.direction },
      targetPlayerId := none }
  else e

/-- The per-enemy AI state transition, server.js lines 289-315: dead
enemies are skipped, the timer is decremented, and a nearest live player
within 500 units forces the chase state regardless of the timer. -/
def enemyAIPhase (e : Enemy) (ps : List Player) (deltaTime : Rat)
    (rand : AIRand) : Enemy :=
  if e.health ≤ 0 then e
  else
    let e1 := { e with aiState := { e.aiState with
      timer := e.aiState.timer - deltaTime } }
    match nearestPlayer ps e.x e.y with
    | some np =>
      if distSq np.x np.y e.x e.y < 500 ^ 2 then
        { e1 with aiState := { e1.aiState with action := "chase" },
                  targetPlayerId := some np.id }
      else aiTimerBranch e1 rand
    | none => aiTimerBranch e1 rand

/-- The melee cooldown check of server.js line 367:
`!enemy.attackCooldown || Date.now() - enemy.attackCooldown > 1000`. -/
def cooldownOK (e : Enemy) (now : Int) : Bool :=
  match e.attackCooldown with
  | none => true
  | some t => decide (now - t > 1000)

/-- The melee attack sub-behavior of server.js lines 360-400, run after
the movement step of the same tick: a targeted live player within 50
units takes a flat 10 damage (shield-reduced, floored at 0) with no
safe-zone check; lethal damage zeroes the health, deletes the player
record and force-disconnects the connection. -/
def enemyAttackPhase (e : Enemy) (ps : List Player) (now : Int) :
    Enemy × List Player × List Emit :=
  match e.targetPlayerId with
  | some tid =>
    match ps.find? (fun p => p.id == tid) with
    | some target =>
      if distSq e.x e.y target.x target.y < 50 ^ 2 then
        if cooldownOK e now then
          let e2 := { e with attackCooldown := some now }
          let damage := applyShield target.inventory 10
          let newHealth := target.health - damage
          if newHealth ≤ 0 then
            (e2, removePlayer ps tid,
             [Emit.broadcast (GEvent.enemyAttack e.id),
              Emit.broadcast (GEvent.playerKilled tid),
              Emit.broadcast (GEvent.playerDisconnected tid),
              Emit.forceDisconnect tid])
          else
            (e2, updatePlayer ps tid (fun p => { p with health := newHealth }),
             [Emit.broadcast (GEvent.enemyAttack e.id),
              Emit.toConn tid (GEvent.playerDamaged tid newHealth)])
        else (e, ps, [])
      else (e, ps, [])
    | none => (e, ps, [])
  | none => (e, ps, [])

/-- Occurrences of an item id in a list of items. -/
def countId (l : List Item) (iid : String) : Nat :=
  (l.filter fun it => it.id == iid).length

/-- Total occurrences of an item id across the world item set and every
player inventory: the quantity the conservation claim is about. -/
def itemCount (s : ServerState) (iid : String) : Nat :=
  countId s.items iid + (s.players.map fun p => countId p.inventory iid).sum

/-! Concrete entities used by witnesses and counterexamples.  The safe
zone spans x, y from 1600 to 3520, so (0, 0) is outside every safe zone
and (2000, 2000) is inside the first one. -/

/-- A sword lying in an inventory or on the ground. -/
def swordItem : Item :=
  { id := "item0", x := 7, y := 8, type := "sword", damage := 12 }

/-- A shield with defense 5, as in end-to-end scenario 2 of the spec. -/
def shieldItem : Item :=
  { id := "item1", x := 3, y := 4, type := "shield", defense := 5 }

/-- A plain player template at the origin (outside every safe zone). -/
def basePlayer : Player :=
  { id := "a", name := "A", x := 0, y := 0, direction := 0, moving := false,
    health := 100, maxHealth := 100, inventory := [], copper := 0 }

/-- A second player, at (100, 0), also outside every safe zone. -/
def playerB : Player :=
  { basePlayer with id := "b", name := "B", x := 100 }

/-- Counterexample state for the conservation claim: an attacker at the
origin and a nearly dead target at (100, 0) carrying the sword. -/
def cexStateC1 : ServerState :=
  { players := [basePlayer, { playerB with health := 5, inventory := [swordItem] }],
    items := [], enemies := [] }

/-- The pending trade offer used by the trade counterexample. -/
def cexTradeOffer : PendingTrade :=
  { recipientId := "b", offeredItemIndex := 0, requestedItemIndex := 0 }

/-- Counterexample state for trade atomicity: sender a has a pending
trade with recipient b, but slot 0 of the recipient inventory is empty. -/
def cexStateC2 : ServerState :=
  { players := [{ basePlayer with inventory := [swordItem], pendingTrade := some cexTradeOffer },
      playerB],
    items := [], enemies := [] }

/-- Counterexample state for the health clamp: one healthy player. -/
def cexStateC3 : ServerState :=
  { players := [basePlayer], items := [], enemies := [] }

/-- Counterexample state for the damage computation: attacker at the
origin, shieldless target b at (100, 0), both outside the safe zone. -/
def cexStateC5 : ServerState :=
  { players := [basePlayer, playerB], items := [], enemies := [] }

/-- Counterexample enemy for the melee cooldown: it last attacked at
time 5000 and stands 10 units from its target. -/
def cexEnemyC6 : Enemy :=
  { id := "enemy0", x := 0, y := 0, health := 50, maxHealth := 50,
    targetPlayerId := some "a",
    aiState := { action := "chase", timer := 1, direction := 0 },
    attackCooldown := some 5000 }

/-- Counterexample state for stale-id handling: the world holds a sword
but no player records at all. -/
def cexStateC7 : ServerState :=
  { players := [], items := [swordItem], enemies := [] }


/-- A player standing at (2000, 2000), inside the safe zone. -/
def safePlayer : Player :=
  { basePlayer with x := 2000, y := 2000 }

/-- A second player standing inside the safe zone. -/
def safePlayerB : Player :=
  { basePlayer with id := "b", name := "B", x := 2000, y := 2000 }

/-- Witness state: attacker a inside the safe zone, target b outside. -/
def witStateC4 : ServerState :=
  { players := [safePlayer, playerB], items := [], enemies := [] }

/-- Witness state: attacker a outside the safe zone, target b inside. -/
def witStateC4b : ServerState :=
  { players := [basePlayer, safePlayerB], items := [], enemies := [] }

/-- Witness state for the shield scenario: target b carries the
defense-5 shield and both players stand outside the safe zone. -/
def witStateC5 : ServerState :=
  { players := [basePlayer, { playerB with inventory := [shieldItem] }],
    items := [], enemies := [] }

/-- A ground item far away from every player. -/
def farItem : Item :=
  { swordItem with x := 12345, y := 11111 }

/-- Witness state for pickup: one player at the origin and one world
item thousands of units away. -/
def witStateC10 : ServerState :=
  { players := [basePlayer], items := [farItem], enemies := [] }

/-- A nearly dead enemy 300 units from the origin. -/
def witEnemyC9 : Enemy :=
  { id := "enemy0", x := 300, y := 0, health := 5, maxHealth := 50,
    targetPlayerId := none,
    aiState := { action := "idle", timer := 0, direction := 0 } }

/-- Witness state for the enemy kill reward. -/
def witStateC9 : ServerState :=
  { players := [basePlayer], items := [], enemies := [witEnemyC9] }

/-- A healthy enemy 400 units from the origin, mid move action. -/
def witEnemyC8 : Enemy :=
  { id := "enemy1", x := 400, y := 0, health := 50, maxHealth := 50,
    targetPlayerId := none,
    aiState := { action := "move", timer := 2, direction := 1 } }

/-- Witness enemy for the melee theorem: standing on the safe-zone
player with its cooldown clear. -/
def witEnemyC6 : Enemy :=
  { cexEnemyC6 with x := 2000, y := 2000, attackCooldown := none }

/-- Witness state for a successful trade: sender a offers the sword
from slot 0 for the shield in slot 0 of recipient b. -/
def witStateC2 : ServerState :=
  { players := [{ basePlayer with inventory := [swordItem], pendingTrade := some cexTradeOffer },
      { playerB with inventory := [shieldItem] }],
    items := [], enemies := [] }

end ChatGame





namespace ChatGame

/-! Helper lemmas about keyed registries.  `updatePlayer`, `removePlayer`
and their Item and Enemy analogues are all `List.map` and `List.filter`
over a string key, so the lemmas are stated once over an abstract key. -/

theorem find?_update_key {α : Type} (key : α → String) (l : List α)
    (k : String) (f : α → α) (hf : ∀ a, key (f a) = key a) :
    (l.map fun a => if key a == k then f a else a).find?
        (fun a => key a == k) =
      (l.find? (fun a => key a == k)).map f := by
  induction l with
  | nil => rfl
  | cons q t ih =>
    by_cases h : key q = k
    · have hb : (key q == k) = true := beq_iff_eq.mpr h
      have hb2 : (key (f q) == k) = true := beq_iff_eq.mpr (by rw [hf, h])
      simp only [List.map_cons, List.find?_cons, hb, hb2, if_true]
      rfl
    · have hb : (key q == k) = false := beq_eq_false_iff_ne.mpr h
      simp only [List.map_cons, List.find?_cons, hb, Bool.false_eq_true,
        if_false]
      exact ih

theorem find?_update_key_ne {α : Type} (key : α → String) (l : List α)
    (k k2 : String) (f : α → α) (hf : ∀ a, key (f a) = key a)
    (hne : k2 ≠ k) :
    (l.map fun a => if key a == k then f a else a).find?
        (fun a => key a == k2) =
      l.find? (fun a => key a == k2) := by
  induction l with
  | nil => rfl
  | cons q t ih =>
    by_cases h : key q = k
    · have hb : (key q == k) = true := beq_iff_eq.mpr h
      have h2 : (key q == k2) = false :=
        beq_eq_false_iff_ne.mpr (fun hq => hne (by rw [← hq, h]))
      have h2f : (key (f q) == k2) = false := by rw [hf]; exact h2
      simp only [List.map_cons, List.find?_cons, hb, if_true, h2, h2f,
        Bool.false_eq_true, if_false]
      exact ih
    · have hb : (key q == k) = false := beq_eq_false_iff_ne.mpr h
      by_cases hq2 : key q = k2
      · have h2 : (key q == k2) = true := beq_iff_eq.mpr hq2
        simp only [List.map_cons, List.find?_cons, hb, Bool.false_eq_true,
          if_false, h2]
      · have h2 : (key q == k2) = false := beq_eq_false_iff_ne.mpr hq2
        simp only [List.map_cons, List.find?_cons, hb, Bool.false_eq_true,
          if_false, h2]
        exact ih

theorem find?_remove_key {α : Type} (key : α → String) (l : List α)
    (k : String) :
    (l.filter fun a => key a != k).find? (fun a => key a == k) = none := by
  induction l with
  | nil => rfl
  | cons q t ih =>
    by_cases h : key q = k
    · have hb2 : (key q != k) = false := by simp [bne, beq_iff_eq.mpr h]
      simp only [List.filter_cons, hb2, Bool.false_eq_true, if_false]
      exact ih
    · have hb : (key q == k) = false := beq_eq_false_iff_ne.mpr h
      have hb2 : (key q != k) = true := by simp [bne, hb]
      simp only [List.filter_cons, hb2, if_true, List.find?_cons, hb,
        Bool.false_eq_true, if_false]
      exact ih

theorem find?_remove_key_ne {α : Type} (key : α → String) (l : List α)
    (k k2 : String) (hne : k2 ≠ k) :
    (l.filter fun a => key a != k).find? (fun a => key a == k2) =
      l.find? (fun a => key a == k2) := by
  induction l with
  | nil => rfl
  | cons q t ih =>
    by_cases h : key q = k
    · have hb2 : (key q != k) = false := by simp [bne, beq_iff_eq.mpr h]
      have h2 : (key q == k2) = false :=
        beq_eq_false_iff_ne.mpr (fun hq => hne (by rw [← hq, h]))
      simp only [List.filter_cons, hb2, Bool.false_eq_true, if_false,
        List.find?_cons, h2]
      exact ih
    · have hb : (key q == k) = false := beq_eq_false_iff_ne.mpr h
      have hb2 : (key q != k) = true := by simp [bne, hb]
      by_cases hq2 : key q = k2
      · have h2 : (key q == k2) = true := beq_iff_eq.mpr hq2
        simp only [List.filter_cons, hb2, if_true, List.find?_cons, h2]
      · have h2 : (key q == k2) = false := beq_eq_false_iff_ne.mpr hq2
        simp only [List.filter_cons, hb2, if_true, List.find?_cons, h2,
          Bool.false_eq_true, if_false]
        exact ih

theorem update_key_no_match {α : Type} (key : α → String) (l : List α)
    (k : String) (f : α → α) (h : ∀ a ∈ l, key a ≠ k) :
    (l.map fun a => if key a == k then f a else a) = l := by
  induction l with
  | nil => rfl
  | cons q t ih =>
    have hb : (key q == k) = false :=
      beq_eq_false_iff_ne.mpr (h q (List.mem_cons_self q t))
    simp only [List.map_cons, hb, Bool.false_eq_true, if_false]
    rw [ih fun a ha => h a (List.mem_cons_of_mem q ha)]

theorem filter_key_no_match {α : Type} (key : α → String) (l : List α)
    (k : String) (h : ∀ a ∈ l, key a ≠ k) :
    (l.filter fun a => key a != k) = l := by
  induction l with
  | nil => rfl
  | cons q t ih =>
    have hb : (key q == k) = false :=
      beq_eq_false_iff_ne.mpr (h q (List.mem_cons_self q t))
    have hb2 : (key q != k) = true := by simp [bne, hb]
    simp only [List.filter_cons, hb2, if_true]
    rw [ih fun a ha => h a (List.mem_cons_of_mem q ha)]

theorem sum_map_update_key {α : Type} (key : α → String) (g : α → Nat)
    (l : List α) (k : String) (f : α → α) (p : α)
    (hfind : l.find? (fun a => key a == k) = some p)
    (hnd : (l.map key).Nodup) :
    ((l.map fun a => if key a == k then f a else a).map g).sum + g p =
      (l.map g).sum + g (f p) := by
  induction l with
  | nil => simp at hfind
  | cons q t ih =>
    rw [List.map_cons, List.nodup_cons] at hnd
    by_cases h : key q = k
    · have hb : (key q == k) = true := beq_iff_eq.mpr h
      simp only [List.find?_cons, hb, if_true] at hfind
      have hp : q = p := Option.some.inj hfind
      have hrest : ∀ a ∈ t, key a ≠ k := by
        intro a ha hak
        exact hnd.1 (h ▸ hak ▸ List.mem_map_of_mem key ha)
      simp only [List.map_cons, hb, if_true, List.sum_cons,
        update_key_no_match key t k f hrest]
      subst hp
      omega
    · have hb : (key q == k) = false := beq_eq_false_iff_ne.mpr h
      simp only [List.find?_cons, hb, Bool.false_eq_true, if_false] at hfind
      have hih := ih hfind hnd.2
      simp only [List.map_cons, hb, Bool.false_eq_true, if_false,
        List.sum_cons]
      omega

theorem sum_map_remove_key {α : Type} (key : α → String) (g : α → Nat)
    (l : List α) (k : String) (p : α)
    (hfind : l.find? (fun a => key a == k) = some p)
    (hnd : (l.map key).Nodup) :
    ((l.filter fun a => key a != k).map g).sum + g p = (l.map g).sum := by
  induction l with
  | nil => simp at hfind
  | cons q t ih =>
    rw [List.map_cons, List.nodup_cons] at hnd
    by_cases h : key q = k
    · have hb : (key q == k) = true := beq_iff_eq.mpr h
      have hb2 : (key q != k) = false := by simp [bne, hb]
      simp only [List.find?_cons, hb, if_true] at hfind
      have hp : q = p := Option.some.inj hfind
      have hrest : ∀ a ∈ t, key a ≠ k := by
        intro a ha hak
        exact hnd.1 (h ▸ hak ▸ List.mem_map_of_mem key ha)
      simp only [List.filter_cons, hb2, Bool.false_eq_true, if_false,
        List.sum_cons, filter_key_no_match key t k hrest, List.map_cons]
      subst hp
      omega
    · have hb : (key q == k) = false := beq_eq_false_iff_ne.mpr h
      have hb2 : (key q != k) = true := by simp [bne, hb]
      simp only [List.find?_cons, hb, Bool.false_eq_true, if_false] at hfind
      have hih := ih hfind hnd.2
      simp only [List.filter_cons, hb2, if_true, List.map_cons,
        List.sum_cons]
      omega

theorem map_key_update_key {α : Type} (key : α → String) (l : List α)
    (k : String) (f : α → α) (hf : ∀ a, key (f a) = key a) :
    (l.map fun a => if key a == k then f a else a).map key = l.map key := by
  induction l with
  | nil => rfl
  | cons q t ih =>
    by_cases h : key q = k
    · have hb : (key q == k) = true := beq_iff_eq.mpr h
      simp only [List.map_cons, hb, if_true, hf, ih]
    · have hb : (key q == k) = false := beq_eq_false_iff_ne.mpr h
      simp only [List.map_cons, hb, Bool.false_eq_true, if_false, ih]

theorem sum_map_update_key_pres {α : Type} (key : α → String) (g : α → Nat)
    (l : List α) (k : String) (f : α → α) (hg : ∀ a, g (f a) = g a) :
    ((l.map fun a => if key a == k then f a else a).map g).sum =
      (l.map g).sum := by
  induction l with
  | nil => rfl
  | cons q t ih =>
    by_cases h : key q = k
    · have hb : (key q == k) = true := beq_iff_eq.mpr h
      simp only [List.map_cons, hb, if_true, hg, List.sum_cons, ih]
    · have hb : (key q == k) = false := beq_eq_false_iff_ne.mpr h
      simp only [List.map_cons, hb, Bool.false_eq_true, if_false,
        List.sum_cons, ih]


/-! Counting lemmas for item conservation. -/

theorem countId_cons (a : Item) (t : List Item) (jid : String) :
    countId (a :: t) jid =
      (if a.id == jid then 1 else 0) + countId t jid := by
  by_cases h : (a.id == jid) = true
  · simp only [countId, List.filter_cons, h, if_true, List.length_cons]
    omega
  · simp [countId, List.filter_cons, h]

theorem countId_append (l1 l2 : List Item) (jid : String) :
    countId (l1 ++ l2) jid = countId l1 jid + countId l2 jid := by
  simp [countId, List.filter_append]

theorem countId_zero (l : List Item) (jid : String)
    (h : ∀ a ∈ l, a.id ≠ jid) : countId l jid = 0 := by
  induction l with
  | nil => rfl
  | cons a t ih =>
    have hb : (a.id == jid) = false :=
      beq_eq_false_iff_ne.mpr (h a (List.mem_cons_self a t))
    rw [countId_cons, hb]
    simp only [Bool.false_eq_true, if_false, Nat.zero_add]
    exact ih fun b hb2 => h b (List.mem_cons_of_mem a hb2)

theorem countId_one (l : List Item) (iid : String) (it : Item)
    (hfind : l.find? (fun a => a.id == iid) = some it)
    (hnd : (l.map Item.id).Nodup) : countId l iid = 1 := by
  induction l with
  | nil => simp at hfind
  | cons a t ih =>
    rw [List.map_cons, List.nodup_cons] at hnd
    by_cases h : a.id = iid
    · have hb : (a.id == iid) = true := beq_iff_eq.mpr h
      have hrest : ∀ b ∈ t, b.id ≠ iid := by
        intro b hbm hbk
        exact hnd.1 (h ▸ hbk ▸ List.mem_map_of_mem Item.id hbm)
      rw [countId_cons, hb, countId_zero t iid hrest]
      simp
    · have hb : (a.id == iid) = false := beq_eq_false_iff_ne.mpr h
      simp only [List.find?_cons, hb, Bool.false_eq_true, if_false] at hfind
      rw [countId_cons, hb]
      simp only [Bool.false_eq_true, if_false, Nat.zero_add]
      exact ih hfind hnd.2

theorem countId_removeItem (its : List Item) (iid jid : String) :
    countId (removeItem its iid) jid =
      if jid = iid then 0 else countId its jid := by
  induction its with
  | nil => simp [removeItem, countId]
  | cons a t ih =>
    by_cases h : a.id = iid
    · have hb2 : (a.id != iid) = true → False := by
        simp [bne, beq_iff_eq.mpr h]
      have hb2f : (a.id != iid) = false := by
        cases hx : (a.id != iid) with
        | true => exact absurd hx hb2
        | false => rfl
      by_cases hj : jid = iid
      · simp only [removeItem, List.filter_cons, hb2f, Bool.false_eq_true,
          if_false, hj, if_true] at ih ⊢
        simpa [hj] using ih
      · have hbj : (a.id == jid) = false :=
          beq_eq_false_iff_ne.mpr (fun hq => hj (by rw [← hq, h]))
        simp only [removeItem, List.filter_cons, hb2f, Bool.false_eq_true,
          if_false, hj] at ih ⊢
        rw [ih, countId_cons, hbj]
        simp
    · have hb : (a.id == iid) = false := beq_eq_false_iff_ne.mpr h
      have hb2 : (a.id != iid) = true := by simp [bne, hb]
      simp only [removeItem, List.filter_cons, hb2, if_true] at ih ⊢
      rw [countId_cons, countId_cons, ih]
      by_cases hj : jid = iid
      · simp [hj, hb]
      · simp [hj, Nat.add_comm]

theorem get?_set_self (l : List Item) (n : Nat) (x y : Item)
    (h : l.get? n = some x) : (l.set n y).get? n = some y := by
  induction l generalizing n with
  | nil => simp at h
  | cons a t ih =>
    cases n with
    | zero => rfl
    | succ m =>
      simp only [List.get?_cons_succ] at h
      simpa using ih m h

theorem get?_set_ne (l : List Item) (n m : Nat) (y : Item)
    (h : n ≠ m) : (l.set n y).get? m = l.get? m := by
  induction l generalizing n m with
  | nil => simp
  | cons a t ih =>
    cases n with
    | zero =>
      cases m with
      | zero => exact absurd rfl h
      | succ m2 => rfl
    | succ n2 =>
      cases m with
      | zero => rfl
      | succ m2 =>
        simpa using ih n2 m2 (fun hx => h (by rw [hx]))

theorem countId_set (inv : List Item) (n : Nat) (x y : Item) (jid : String)
    (h : inv.get? n = some x) :
    countId (inv.set n y) jid + (if x.id == jid then 1 else 0) =
      countId inv jid + (if y.id == jid then 1 else 0) := by
  induction inv generalizing n with
  | nil => simp at h
  | cons a t ih =>
    cases n with
    | zero =>
      simp only [List.get?_cons_zero] at h
      have hx : a = x := Option.some.inj h
      subst hx
      simp only [List.set_cons_zero]
      rw [countId_cons, countId_cons]
      omega
    | succ m =>
      simp only [List.get?_cons_succ] at h
      simp only [List.set_cons_succ]
      rw [countId_cons, countId_cons]
      have := ih m h
      omega

theorem getSlot_bounds (inv : List Item) (i : Int) (x : Item)
    (h : getSlot inv i = some x) : ¬ i < 0 ∧ inv.get? i.toNat = some x := by
  unfold getSlot at h
  by_cases hi : i < 0
  · rw [if_pos hi] at h; exact absurd h (by simp)
  · rw [if_neg hi] at h; exact ⟨hi, h⟩

theorem setSlot_eq (inv : List Item) (i : Int) (x y : Item)
    (h : getSlot inv i = some x) : setSlot inv i y = inv.set i.toNat y := by
  unfold setSlot
  rw [if_neg (getSlot_bounds inv i x h).1]

theorem getSlot_setSlot_other (inv : List Item) (i j : Int)
    (off req : Item) (hi : getSlot inv i = some off)
    (hj : getSlot inv j = some req) :
    getSlot (setSlot inv i req) j = some req := by
  obtain ⟨hi0, hig⟩ := getSlot_bounds inv i off hi
  obtain ⟨hj0, hjg⟩ := getSlot_bounds inv j req hj
  rw [setSlot_eq inv i off req hi]
  unfold getSlot
  rw [if_neg hj0]
  by_cases hnm : i.toNat = j.toNat
  · rw [← hnm]
    exact get?_set_self inv i.toNat off req hig
  · rw [get?_set_ne inv i.toNat j.toNat req hnm]
    exact hjg


/-! Claim theorems. -/

/-- C4: for every attack event, if the attacker stands inside any safe
zone the outcome is an attackError sent to the attacker only and the
state (in particular every health) is unchanged; likewise, if the target
is a player standing inside any safe zone, the attack is rejected with
an attackError to the attacker only and the state is unchanged. -/
theorem attack_safe_zone_gating (s : ServerState) (sid : String)
    (data : AttackPayload) (code : String) (attacker : Player)
    (hA : findPlayer s sid = some attacker) :
    (isInSafeZone attacker.x attacker.y = true →
      attack s sid data code =
        some (s, [Emit.toConn sid (GEvent.attackError
          "You cannot attack from a safe zone.")])) ∧
    (∀ target : Player, isInSafeZone attacker.x attacker.y = false →
      findPlayer s data.targetId = some target →
      isInSafeZone target.x target.y = true →
      attack s sid data code =
        some (s, [Emit.toConn sid (GEvent.attackError
          "You cannot attack a player in a safe zone.")])) := by
  constructor
  · intro hSafe
    simp [attack, hA, hSafe]
  · intro target hSafeA hT hTS
    simp [attack, hA, hSafeA, hT, hTS]

/-- Witness for C4 at concrete states: player a at (2000, 2000) inside
the safe zone cannot attack b, and player a at the origin cannot attack
a target standing at (2000, 2000) inside the safe zone. -/
theorem attack_safe_zone_gating_witness :
    (findPlayer witStateC4 "a" = some safePlayer ∧
      isInSafeZone safePlayer.x safePlayer.y = true ∧
      attack witStateC4 "a" { targetId := "b", weapon := none } "RC" =
        some (witStateC4, [Emit.toConn "a" (GEvent.attackError
          "You cannot attack from a safe zone.")])) ∧
    (findPlayer witStateC4b "a" = some basePlayer ∧
      findPlayer witStateC4b "b" = some safePlayerB ∧
      isInSafeZone safePlayerB.x safePlayerB.y = true ∧
      attack witStateC4b "a" { targetId := "b", weapon := none } "RC" =
        some (witStateC4b, [Emit.toConn "a" (GEvent.attackError
          "You cannot attack a player in a safe zone.")])) :=
  ⟨⟨rfl, by decide,
    (attack_safe_zone_gating witStateC4 "a"
      { targetId := "b", weapon := none } "RC" safePlayer rfl).1 (by decide)⟩,
   ⟨rfl, rfl, by decide,
    (attack_safe_zone_gating witStateC4b "a"
      { targetId := "b", weapon := none } "RC" basePlayer rfl).2
      safePlayerB (by decide) rfl (by decide)⟩⟩

/-- C10: a pickupItem event for a world item sent by a connection with a
live player moves the item into the inventory of that player and out of the
world, for every state, every player position and every item position:
no proximity between the two is ever checked. -/
theorem pickup_no_proximity_check (s : ServerState) (sid iid : String)
    (p : Player) (it : Item)
    (hp : findPlayer s sid = some p) (hi : findItem s iid = some it) :
    ∃ s2, pickupItem s sid iid =
        some (s2, [Emit.broadcast (GEvent.itemPickedUp sid iid it)]) ∧
      findPlayer s2 sid = some { p with inventory := p.inventory ++ [it] } ∧
      findItem s2 iid = none := by
  refine ⟨{ s with
      players := updatePlayer s.players sid fun q =>
        { q with inventory := q.inventory ++ [it] },
      items := removeItem s.items iid }, ?_, ?_, ?_⟩
  · simp [pickupItem, hi, hp]
  · show (s.players.map fun a =>
        if a.id == sid then { a with inventory := a.inventory ++ [it] }
        else a).find? (fun a => a.id == sid) = _
    rw [find?_update_key Player.id s.players sid
      (fun q => { q with inventory := q.inventory ++ [it] }) (fun q => rfl)]
    rw [show s.players.find? (fun a => a.id == sid) = some p from hp]
    rfl
  · show (s.items.filter fun a => a.id != iid).find?
      (fun a => a.id == iid) = none
    exact find?_remove_key Item.id s.items iid


/-- Witness for C10 at a concrete state: the player at the origin picks
up an item at (12345, 11111), thousands of units away. -/
theorem pickup_no_proximity_check_witness :
    findPlayer witStateC10 "a" = some basePlayer ∧
    findItem witStateC10 "item0" = some farItem ∧
    ∃ s2, pickupItem witStateC10 "a" "item0" =
        some (s2, [Emit.broadcast (GEvent.itemPickedUp "a" "item0" farItem)]) ∧
      findPlayer s2 "a" = some { basePlayer with inventory := [farItem] } ∧
      findItem s2 "item0" = none :=
  ⟨rfl, rfl,
   pickup_no_proximity_check witStateC10 "a" "item0" basePlayer farItem rfl rfl⟩

/-- C9: an attack that brings an enemy to 0 or below removes the enemy
from the store, adds exactly 10 copper to the attacking player, and
sends the freshly generated reward code to the attacking connection
only. -/
theorem enemy_kill_reward (s : ServerState) (sid : String)
    (data : AttackPayload) (code : String) (attacker : Player)
    (enemy : Enemy)
    (hA : findPlayer s sid = some attacker)
    (hSafe : isInSafeZone attacker.x attacker.y = false)
    (hNP : findPlayer s data.targetId = none)
    (hE : findEnemy s data.targetId = some enemy)
    (hKill : enemy.health ≤ baseDamage data.weapon) :
    ∃ s2 evs, attack s sid data code = some (s2, evs) ∧
      evs = [Emit.toConn sid (GEvent.updateCopper (attacker.copper + 10)),
             Emit.broadcast (GEvent.enemyKilled data.targetId),
             Emit.toConn sid (GEvent.rewardCode code)] ∧
      findPlayer s2 sid =
        some { attacker with copper := attacker.copper + 10 } ∧
      findEnemy s2 data.targetId = none ∧
      (∀ d c, Emit.toConn d (GEvent.rewardCode c) ∈ evs →
        d = sid ∧ c = code) := by
  have hle : enemy.health - baseDamage data.weapon ≤ 0 := by omega
  refine ⟨{ s with
      players := updatePlayer s.players sid fun q =>
        { q with copper := q.copper + 10 },
      enemies := removeEnemy s.enemies data.targetId },
    [Emit.toConn sid (GEvent.updateCopper (attacker.copper + 10)),
     Emit.broadcast (GEvent.enemyKilled data.targetId),
     Emit.toConn sid (GEvent.rewardCode code)], ?_, rfl, ?_, ?_, ?_⟩
  · simp [attack, hA, hSafe, hNP, hE, hle]
  · show (s.players.map fun a =>
        if a.id == sid then { a with copper := a.copper + 10 }
        else a).find? (fun a => a.id == sid) = _
    rw [find?_update_key Player.id s.players sid
      (fun q => { q with copper := q.copper + 10 }) (fun q => rfl)]
    rw [show s.players.find? (fun a => a.id == sid) = some attacker from hA]
    rfl
  · show (s.enemies.filter fun a => a.id != data.targetId).find?
      (fun a => a.id == data.targetId) = none
    exact find?_remove_key Enemy.id s.enemies data.targetId
  · intro d c hm
    simp at hm
    exact hm

/-- Witness for C9 at a concrete state: killing the health-5 enemy with
a damage-10 weapon pays out 10 copper and one targeted reward code. -/
theorem enemy_kill_reward_witness :
    findPlayer witStateC9 "a" = some basePlayer ∧
    isInSafeZone basePlayer.x basePlayer.y = false ∧
    findEnemy witStateC9 "enemy0" = some witEnemyC9 ∧
    witEnemyC9.health ≤
      baseDamage (some { damage := some 10 }) ∧
    ∃ s2 evs,
      attack witStateC9 "a"
        { targetId := "enemy0", weapon := some { damage := some 10 } }
        "WINCODE" = some (s2, evs) ∧
      evs = [Emit.toConn "a" (GEvent.updateCopper (basePlayer.copper + 10)),
             Emit.broadcast (GEvent.enemyKilled "enemy0"),
             Emit.toConn "a" (GEvent.rewardCode "WINCODE")] ∧
      findPlayer s2 "a" =
        some { basePlayer with copper := basePlayer.copper + 10 } ∧
      findEnemy s2 "enemy0" = none ∧
      (∀ d c, Emit.toConn d (GEvent.rewardCode c) ∈ evs →
        d = "a" ∧ c = "WINCODE") :=
  ⟨rfl, by decide, rfl, by decide,
   enemy_kill_reward witStateC9 "a"
     { targetId := "enemy0", weapon := some { damage := some 10 } }
     "WINCODE" basePlayer witEnemyC9 rfl (by decide) rfl rfl (by decide)⟩

/-- C7 counterexample: the claim says an attack or pickupItem from a
connection whose player record has been removed completes without
fault, but the source dereferences the absent record
(`players[socket.id].inventory.push`, `attacker.x`) and throws; the
embedded handlers return `none` (a thrown TypeError) on a state that
still holds the requested item. -/
theorem stale_events_cex :
    findItem cexStateC7 "item0" = some swordItem ∧
    pickupItem cexStateC7 "ghost" "item0" = none ∧
    attack cexStateC7 "ghost" { targetId := "b", weapon := none } "RC" =
      none :=
  ⟨rfl, rfl, rfl⟩

/-- C7 amended: a stale TARGET id is a silent no-op: an attack by a live
player outside the safe zone on a target id that is neither a live
player nor a live enemy completes, mutates nothing and emits nothing;
likewise a pickupItem naming an item id absent from the world is a
silent no-op.  (Events from a connection whose own player record was
already removed, by contrast, throw; see the counterexample.) -/
theorem stale_target_silent_noop (s : ServerState) (sid : String)
    (data : AttackPayload) (code : String) (attacker : Player)
    (hA : findPlayer s sid = some attacker)
    (hSafe : isInSafeZone attacker.x attacker.y = false)
    (hNP : findPlayer s data.targetId = none)
    (hNE : findEnemy s data.targetId = none) :
    attack s sid data code = some (s, []) ∧
    ∀ iid, findItem s iid = none → pickupItem s sid iid = some (s, []) := by
  constructor
  · simp [attack, hA, hSafe, hNP, hNE]
  · intro iid hi
    simp [pickupItem, hi]

/-- Witness for C7 amended at a concrete state: attacking the absent id
zzz and picking up the absent item id nothing are both silent no-ops. -/
theorem stale_target_silent_noop_witness :
    findPlayer cexStateC3 "a" = some basePlayer ∧
    findPlayer cexStateC3 "zzz" = none ∧
    findEnemy cexStateC3 "zzz" = none ∧
    attack cexStateC3 "a" { targetId := "zzz", weapon := none } "RC" =
      some (cexStateC3, []) ∧
    pickupItem cexStateC3 "a" "nothing" = some (cexStateC3, []) := by
  have h := stale_target_silent_noop cexStateC3 "a"
    { targetId := "zzz", weapon := none } "RC" basePlayer rfl (by decide)
    rfl rfl
  exact ⟨rfl, rfl, rfl, h.1, h.2 "nothing" rfl⟩


/-! Health-bound helpers for the clamp claim. -/

theorem applyShield_nonneg (inv : List Item) (dmg : Int) (h : 0 ≤ dmg) :
    0 ≤ applyShield inv dmg := by
  unfold applyShield
  cases inv.find? (fun it => it.type == "shield") with
  | none => exact h
  | some shield => exact le_max_left 0 _

theorem key_unique {α : Type} (key : α → String) (l : List α)
    (hnd : (l.map key).Nodup) (a b : α) (ha : a ∈ l) (hb : b ∈ l)
    (hk : key a = key b) : a = b := by
  induction l with
  | nil => simp at ha
  | cons q t ih =>
    rw [List.map_cons, List.nodup_cons] at hnd
    rcases List.mem_cons.mp ha with ha1 | ha2 <;>
      rcases List.mem_cons.mp hb with hb1 | hb2
    · rw [ha1, hb1]
    · subst ha1
      have hmem : key b ∈ t.map key := List.mem_map_of_mem key hb2
      rw [← hk] at hmem
      exact absurd hmem hnd.1
    · subst hb1
      have hmem : key a ∈ t.map key := List.mem_map_of_mem key ha2
      rw [hk] at hmem
      exact absurd hmem hnd.1
    · exact ih hnd.2 ha2 hb2

/-- The element a `find?` returns satisfies its predicate and is a
member; specialised to the id search the registries use. -/
theorem find?_id_eq {α : Type} (key : α → String) (l : List α) (k : String)
    (a : α) (h : l.find? (fun b => key b == k) = some a) :
    key a = k ∧ a ∈ l := by
  have hpred := List.find?_some h
  exact ⟨beq_iff_eq.mp hpred, List.mem_of_find?_eq_some h⟩


theorem mem_update_decomp {α : Type} (key : α → String) (l : List α)
    (k : String) (f : α → α) (q : α)
    (hq : q ∈ l.map fun a => if key a == k then f a else a) :
    ∃ r, r ∈ l ∧ ((key r = k ∧ q = f r) ∨ (key r ≠ k ∧ q = r)) := by
  obtain ⟨r, hr, he⟩ := List.mem_map.mp hq
  by_cases h : key r = k
  · refine ⟨r, hr, Or.inl ⟨h, ?_⟩⟩
    rw [← he]
    simp [beq_iff_eq.mpr h]
  · refine ⟨r, hr, Or.inr ⟨h, ?_⟩⟩
    rw [← he]
    simp [beq_eq_false_iff_ne.mpr h]

/-- Every health the attack handler persists stays within bounds: a
surviving player target keeps a positive health, a lethal hit removes
the record, the copper reward leaves health untouched, and the same
holds for enemies, assuming the client-supplied weapon damage is not
negative. -/
theorem attack_health_bounds :
    ∀ (s : ServerState) (sid : String) (data : AttackPayload)
      (code : String) (s2 : ServerState) (evs : List Emit),
    attack s sid data code = some (s2, evs) →
    0 ≤ baseDamage data.weapon →
    (s.players.map Player.id).Nodup →
    (s.enemies.map Enemy.id).Nodup →
    (∀ q ∈ s.players, 0 ≤ q.health ∧ q.health ≤ q.maxHealth) →
    (∀ e ∈ s.enemies, 0 ≤ e.health ∧ e.health ≤ e.maxHealth) →
    (∀ q ∈ s2.players, 0 ≤ q.health ∧ q.health ≤ q.maxHealth) ∧
    (∀ e ∈ s2.enemies, 0 ≤ e.health ∧ e.health ≤ e.maxHealth) := by
  intro s sid data code s2 evs hAtk hdmg hndP hndE hp he
  cases hA : findPlayer s sid with
  | none => simp [attack, hA] at hAtk
  | some attacker =>
    by_cases hSz : isInSafeZone attacker.x attacker.y
    · simp [attack, hA, hSz] at hAtk
      obtain ⟨rfl, rfl⟩ := hAtk
      exact ⟨hp, he⟩
    · cases hT : findPlayer s data.targetId with
      | some target =>
        obtain ⟨hTid, hTmem⟩ :=
          find?_id_eq Player.id s.players data.targetId target hT
        by_cases hTSz : isInSafeZone target.x target.y
        · simp [attack, hA, hSz, hT, hTSz] at hAtk
          obtain ⟨rfl, rfl⟩ := hAtk
          exact ⟨hp, he⟩
        · by_cases hdead :
            target.health - applyShield target.inventory
              (baseDamage data.weapon) ≤ 0
          · simp [attack, hA, hSz, hT, hTSz, hdead] at hAtk
            obtain ⟨rfl, rfl⟩ := hAtk
            refine ⟨?_, he⟩
            intro q hq
            exact hp q (List.mem_of_mem_filter hq)
          · simp [attack, hA, hSz, hT, hTSz, hdead] at hAtk
            obtain ⟨rfl, rfl⟩ := hAtk
            refine ⟨?_, he⟩
            intro q hq
            obtain ⟨r, hr, hcase⟩ :=
              mem_update_decomp Player.id s.players data.targetId
                (fun p => { p with health := target.health - applyShield target.inventory (baseDamage data.weapon) })
                q hq
            rcases hcase with ⟨hrk, rfl⟩ | ⟨_, rfl⟩
            · have hrt : r = target :=
                key_unique Player.id s.players hndP r target hr hTmem
                  (by rw [hrk, hTid])
              have hb := hp target hTmem
              have hD := applyShield_nonneg target.inventory
                (baseDamage data.weapon) hdmg
              constructor
              · show (0:Int) ≤ target.health -
                  applyShield target.inventory (baseDamage data.weapon)
                omega
              · show target.health -
                  applyShield target.inventory (baseDamage data.weapon) ≤
                    r.maxHealth
                rw [hrt]
                omega
            · exact hp _ hr
      | none =>
        cases hE : findEnemy s data.targetId with
        | none =>
          simp [attack, hA, hSz, hT, hE] at hAtk
          obtain ⟨rfl, rfl⟩ := hAtk
          exact ⟨hp, he⟩
        | some enemy =>
          obtain ⟨hEid, hEmem⟩ :=
            find?_id_eq Enemy.id s.enemies data.targetId enemy hE
          by_cases hkill : enemy.health - baseDamage data.weapon ≤ 0
          · simp [attack, hA, hSz, hT, hE, hkill] at hAtk
            obtain ⟨rfl, rfl⟩ := hAtk
            constructor
            · intro q hq
              obtain ⟨r, hr, hcase⟩ :=
                mem_update_decomp Player.id s.players sid
                  (fun p => { p with copper := p.copper + 10 }) q hq
              rcases hcase with ⟨_, rfl⟩ | ⟨_, rfl⟩
              · exact hp r hr
              · exact hp _ hr
            · intro e2 he2
              exact he e2 (List.mem_of_mem_filter he2)
          · simp [attack, hA, hSz, hT, hE, hkill] at hAtk
            obtain ⟨rfl, rfl⟩ := hAtk
            refine ⟨hp, ?_⟩
            intro e2 he2
            obtain ⟨r, hr, hcase⟩ :=
              mem_update_decomp Enemy.id s.enemies data.targetId
                (fun en => { en with health := enemy.health - baseDamage data.weapon })
                e2 he2
            rcases hcase with ⟨hrk, rfl⟩ | ⟨_, rfl⟩
            · have hrt : r = enemy :=
                key_unique Enemy.id s.enemies hndE r enemy hr hEmem
                  (by rw [hrk, hEid])
              have hb := he enemy hEmem
              constructor
              · show (0:Int) ≤ enemy.health - baseDamage data.weapon
                omega
              · show enemy.health - baseDamage data.weapon ≤ r.maxHealth
                rw [hrt]
                omega
            · exact he _ hr

/-- The enemy melee attack never persists an out-of-range health: the
flat 10 damage is shield-reduced but never negative, a surviving target
keeps a positive health and a dead one is removed. -/
theorem melee_health_bounds :
    ∀ (e : Enemy) (ps : List Player) (now : Int),
    (ps.map Player.id).Nodup →
    (∀ q ∈ ps, 0 ≤ q.health ∧ q.health ≤ q.maxHealth) →
    ∀ q ∈ (enemyAttackPhase e ps now).2.1,
      0 ≤ q.health ∧ q.health ≤ q.maxHealth := by
  intro e ps now hnd hp q hq
  cases hT : e.targetPlayerId with
  | none =>
    simp only [enemyAttackPhase, hT] at hq
    exact hp q hq
  | some tid =>
    cases hF : ps.find? (fun p => p.id == tid) with
    | none =>
      simp [enemyAttackPhase, hT, hF] at hq
      exact hp q hq
    | some target =>
      obtain ⟨hTid, hTmem⟩ := find?_id_eq Player.id ps tid target hF
      by_cases hdist : distSq e.x e.y target.x target.y < 2500
      · by_cases hcd : cooldownOK e now = true
        · by_cases hdead : target.health ≤ applyShield target.inventory 10
          · simp [enemyAttackPhase, hT, hF, hdist, hcd, hdead] at hq
            exact hp q (List.mem_of_mem_filter hq)
          · simp [enemyAttackPhase, hT, hF, hdist, hcd, hdead] at hq
            obtain ⟨r, hr, hcase⟩ :=
              mem_update_decomp Player.id ps tid
                (fun p => { p with health := target.health - applyShield target.inventory 10 })
                q hq
            rcases hcase with ⟨hrk, rfl⟩ | ⟨_, rfl⟩
            · have hrt : r = target :=
                key_unique Player.id ps hnd r target hr hTmem
                  (by rw [hrk, hTid])
              have hb := hp target hTmem
              have hD := applyShield_nonneg target.inventory 10 (by omega)
              constructor
              · show (0:Int) ≤ target.health -
                  applyShield target.inventory 10
                omega
              · show target.health - applyShield target.inventory 10 ≤
                  r.maxHealth
                rw [hrt]
                omega
            · exact hp _ hr
        · simp [enemyAttackPhase, hT, hF, hdist, hcd] at hq
          exact hp q hq
      · simp [enemyAttackPhase, hT, hF, hdist] at hq
        exact hp q hq


/-! Fold lemmas for the nearest-player scan. -/

theorem nearest_stay (ex ey : Int) (p : Player) :
    ∀ (l : List Player),
    (∀ q ∈ l, q ≠ p → distSq p.x p.y ex ey < distSq q.x q.y ex ey) →
    l.foldl (nearestStep ex ey) (some p) = some p := by
  intro l
  induction l with
  | nil => intro _; rfl
  | cons q t ih =>
    intro hmin
    simp only [List.foldl_cons]
    have hnot : ¬ distSq q.x q.y ex ey < distSq p.x p.y ex ey := by
      by_cases hqp : q = p
      · rw [hqp]; exact lt_irrefl _
      · exact fun hlt =>
          lt_asymm hlt (hmin q (List.mem_cons_self q t) hqp)
    show t.foldl (nearestStep ex ey)
      (if distSq q.x q.y ex ey < distSq p.x p.y ex ey then some q
       else some p) = some p
    rw [if_neg hnot]
    exact ih fun r hr hrp => hmin r (List.mem_cons_of_mem q hr) hrp

theorem nearest_from (ex ey : Int) (p : Player) :
    ∀ (l : List Player) (a : Player),
    (∀ q ∈ l, q ≠ p → distSq p.x p.y ex ey < distSq q.x q.y ex ey) →
    p ∈ l →
    distSq p.x p.y ex ey < distSq a.x a.y ex ey →
    l.foldl (nearestStep ex ey) (some a) = some p := by
  intro l
  induction l with
  | nil =>
    intro a _ hmem _
    simp at hmem
  | cons q t ih =>
    intro a hmin hmem hda
    simp only [List.foldl_cons]
    show t.foldl (nearestStep ex ey)
      (if distSq q.x q.y ex ey < distSq a.x a.y ex ey then some q
       else some a) = some p
    by_cases hqp : q = p
    · rw [hqp]
      rw [if_pos hda]
      exact nearest_stay ex ey p t
        fun r hr hrp => hmin r (List.mem_cons_of_mem q hr) hrp
    · have hdq : distSq p.x p.y ex ey < distSq q.x q.y ex ey :=
        hmin q (List.mem_cons_self q t) hqp
      have hmem2 : p ∈ t := by
        rcases List.mem_cons.mp hmem with h1 | h2
        · exact absurd h1.symm hqp
        · exact h2
      by_cases hqa : distSq q.x q.y ex ey < distSq a.x a.y ex ey
      · rw [if_pos hqa]
        exact ih q (fun r hr hrp => hmin r (List.mem_cons_of_mem q hr) hrp)
          hmem2 hdq
      · rw [if_neg hqa]
        exact ih a (fun r hr hrp => hmin r (List.mem_cons_of_mem q hr) hrp)
          hmem2 hda

theorem nearestPlayer_unique (ps : List Player) (ex ey : Int) (p : Player)
    (hmem : p ∈ ps)
    (hmin : ∀ q ∈ ps, q ≠ p →
      distSq p.x p.y ex ey < distSq q.x q.y ex ey) :
    nearestPlayer ps ex ey = some p := by
  cases ps with
  | nil => simp at hmem
  | cons q t =>
    unfold nearestPlayer
    simp only [List.foldl_cons]
    show t.foldl (nearestStep ex ey) (some q) = some p
    by_cases hqp : q = p
    · rw [hqp]
      exact nearest_stay ex ey p t
        fun r hr hrp => hmin r (List.mem_cons_of_mem q hr) hrp
    · have hdq := hmin q (List.mem_cons_self q t) hqp
      have hmem2 : p ∈ t := by
        rcases List.mem_cons.mp hmem with h1 | h2
        · exact absurd h1.symm hqp
        · exact h2
      exact nearest_from ex ey p t q
        (fun r hr hrp => hmin r (List.mem_cons_of_mem q hr) hrp)
        hmem2 hdq

/-- C8: on every AI tick, a live enemy whose uniquely nearest live
player lies strictly within 500 units is forced into the chase state
targeting that player, whatever its running idle or move timer was. -/
theorem enemy_aggro_override (e : Enemy) (ps : List Player) (dt : Rat)
    (rand : AIRand) (p : Player)
    (hHealth : 0 < e.health)
    (hmem : p ∈ ps)
    (hmin : ∀ q ∈ ps, q ≠ p →
      distSq p.x p.y e.x e.y < distSq q.x q.y e.x e.y)
    (hAggro : distSq p.x p.y e.x e.y < 500 ^ 2) :
    (enemyAIPhase e ps dt rand).aiState.action = "chase" ∧
    (enemyAIPhase e ps dt rand).targetPlayerId = some p.id := by
  have hnle : ¬ e.health ≤ 0 := by omega
  have hnp : nearestPlayer ps e.x e.y = some p :=
    nearestPlayer_unique ps e.x e.y p hmem hmin
  have hAggro2 : distSq p.x p.y e.x e.y < 250000 := by simpa using hAggro
  simp [enemyAIPhase, hnle, hnp, hAggro2]

/-- Witness for C8: the enemy 400 units from the lone player at the
origin, mid move with 2 seconds left on its timer, switches to chasing
that player on the next tick. -/
theorem enemy_aggro_override_witness :
    0 < witEnemyC8.health ∧
    distSq basePlayer.x basePlayer.y witEnemyC8.x witEnemyC8.y < 500 ^ 2 ∧
    witEnemyC8.aiState.action = "move" ∧
    (enemyAIPhase witEnemyC8 [basePlayer] (1/30)
      { action := "idle", timer := 2, direction := 0 }).aiState.action =
        "chase" ∧
    (enemyAIPhase witEnemyC8 [basePlayer] (1/30)
      { action := "idle", timer := 2, direction := 0 }).targetPlayerId =
        some "a" := by
  have h := enemy_aggro_override witEnemyC8 [basePlayer] (1/30)
    { action := "idle", timer := 2, direction := 0 } basePlayer
    (by decide) (by simp) (by decide) (by decide)
  exact ⟨by decide, by decide, rfl, h.1, h.2⟩


/-- The playerMovement handler copies the client-reported fields,
health included, into the player record without any validation. -/
theorem movement_writes_payload :
    ∀ (s : ServerState) (sid : String) (d : MovementPayload) (p : Player),
    findPlayer s sid = some p →
    findPlayer (playerMovement s sid d).1 sid =
      some { p with x := d.x, y := d.y, direction := d.direction,
                    frameIndex := d.frameIndex, health := d.health } := by
  intro s sid d p hp
  simp only [playerMovement, hp]
  show (s.players.map fun a =>
      if a.id == sid then { a with x := d.x, y := d.y, direction := d.direction, frameIndex := d.frameIndex, health := d.health }
      else a).find? (fun a => a.id == sid) = _
  rw [find?_update_key Player.id s.players sid
    (fun a => { a with x := d.x, y := d.y, direction := d.direction, frameIndex := d.frameIndex, health := d.health })
    (fun q => rfl)]
  rw [show s.players.find? (fun a => a.id == sid) = some p from hp]
  rfl

/-- C3 counterexample: a playerMovement report carrying health 200 is
persisted verbatim on a player whose maxHealth is 100, so the claimed
clamp to the maxHealth bound fails. -/
theorem health_clamp_cex :
    (findPlayer (playerMovement cexStateC3 "a"
        { x := 0, y := 0, direction := 0, frameIndex := 0, health := 200 }).1
      "a").map (fun p => (p.health, p.maxHealth)) = some (200, 100) ∧
    ¬ ((200:Int) ≤ 100) :=
  ⟨rfl, by decide⟩

/-- C3 amended: combat never persists an out-of-range health — attack
resolution keeps every player and enemy health in [0, maxHealth] (the
upper bound needs the client weapon damage to be nonnegative), and
enemy melee does the same unconditionally — but playerMovement
overwrites health with the raw client value, so values outside
[0, maxHealth] can be persisted through that handler. -/
theorem health_clamp_amended :
    (∀ (s : ServerState) (sid : String) (d : MovementPayload) (p : Player),
      findPlayer s sid = some p →
      findPlayer (playerMovement s sid d).1 sid =
        some { p with x := d.x, y := d.y, direction := d.direction, frameIndex := d.frameIndex, health := d.health }) ∧
    (∀ (s : ServerState) (sid : String) (data : AttackPayload)
       (code : String) (s2 : ServerState) (evs : List Emit),
      attack s sid data code = some (s2, evs) →
      0 ≤ baseDamage data.weapon →
      (s.players.map Player.id).Nodup →
      (s.enemies.map Enemy.id).Nodup →
      (∀ q ∈ s.players, 0 ≤ q.health ∧ q.health ≤ q.maxHealth) →
      (∀ e ∈ s.enemies, 0 ≤ e.health ∧ e.health ≤ e.maxHealth) →
      (∀ q ∈ s2.players, 0 ≤ q.health ∧ q.health ≤ q.maxHealth) ∧
      (∀ e ∈ s2.enemies, 0 ≤ e.health ∧ e.health ≤ e.maxHealth)) ∧
    (∀ (e : Enemy) (ps : List Player) (now : Int),
      (ps.map Player.id).Nodup →
      (∀ q ∈ ps, 0 ≤ q.health ∧ q.health ≤ q.maxHealth) →
      ∀ q ∈ (enemyAttackPhase e ps now).2.1,
        0 ≤ q.health ∧ q.health ≤ q.maxHealth) :=
  ⟨movement_writes_payload, attack_health_bounds, melee_health_bounds⟩

/-- Witness for C3 amended at concrete states: the movement overwrite,
a rejected attack leaving bounds intact, and a melee tick leaving
bounds intact. -/
theorem health_clamp_amended_witness :
    findPlayer cexStateC3 "a" = some basePlayer ∧
    findPlayer (playerMovement cexStateC3 "a"
        { x := 1, y := 2, direction := 3, frameIndex := 4, health := 55 }).1
      "a" = some { basePlayer with x := 1, y := 2, direction := 3, frameIndex := 4, health := 55 } ∧
    attack witStateC4 "a" { targetId := "b", weapon := none } "RC" =
      some (witStateC4, [Emit.toConn "a" (GEvent.attackError
        "You cannot attack from a safe zone.")]) ∧
    (∀ q ∈ witStateC4.players, 0 ≤ q.health ∧ q.health ≤ q.maxHealth) ∧
    (∀ q ∈ (enemyAttackPhase witEnemyC6 [safePlayer] 99999).2.1,
      0 ≤ q.health ∧ q.health ≤ q.maxHealth) :=
  ⟨rfl,
   health_clamp_amended.1 cexStateC3 "a"
     { x := 1, y := 2, direction := 3, frameIndex := 4, health := 55 }
     basePlayer rfl,
   rfl,
   (health_clamp_amended.2.1 witStateC4 "a"
     { targetId := "b", weapon := none } "RC" witStateC4
     [Emit.toConn "a" (GEvent.attackError
       "You cannot attack from a safe zone.")]
     rfl (by decide) (by decide) (by decide) (by decide) (by decide)).1,
   health_clamp_amended.2.2 witEnemyC6 [safePlayer] 99999
     (by decide) (by decide)⟩

/-- C5 counterexample: the claim reads the damage as weapon.damage
whenever it is present, but a present damage of 0 is falsy in the
source, which falls back to the default 10: the shieldless target at
full health 100 ends at 90, not 100. -/
theorem attack_damage_cex :
    (findPlayer cexStateC5 "b").map Player.health = some 100 ∧
    (attack cexStateC5 "a"
        { targetId := "b", weapon := some { damage := some 0 } }
        "RC").map (fun r => (findPlayer r.1 "b").map Player.health) =
      some (some 90) :=
  ⟨rfl, rfl⟩

/-- C5 amended: for an attack on a player target with attacker and
target outside safe zones, the damage is weapon.damage when present and
nonzero (else the default 10), reduced by the defense of the first
shield anywhere in the target inventory, floored at 0; a non-lethal hit
persists exactly that health loss, and a hit of at least the remaining
health removes the target instead. -/
theorem attack_damage_amended (s : ServerState) (sid : String)
    (data : AttackPayload) (code : String) (attacker target : Player)
    (hA : findPlayer s sid = some attacker)
    (hSafeA : isInSafeZone attacker.x attacker.y = false)
    (hT : findPlayer s data.targetId = some target)
    (hSafeT : isInSafeZone target.x target.y = false) :
    (¬ target.health - applyShield target.inventory (baseDamage data.weapon) ≤ 0 →
      ∃ s2, attack s sid data code = some (s2,
          [Emit.broadcast (GEvent.playerDamaged data.targetId
            (target.health - applyShield target.inventory (baseDamage data.weapon)))]) ∧
        findPlayer s2 data.targetId =
          some { target with health := target.health - applyShield target.inventory (baseDamage data.weapon) }) ∧
    (target.health - applyShield target.inventory (baseDamage data.weapon) ≤ 0 →
      attack s sid data code =
        some ({ s with players := removePlayer s.players data.targetId },
          [Emit.broadcast (GEvent.playerKilled data.targetId),
           Emit.toConn data.targetId (GEvent.playerDamaged data.targetId 0),
           Emit.broadcast (GEvent.playerDisconnected data.targetId),
           Emit.forceDisconnect data.targetId])) := by
  constructor
  · intro hlive
    refine ⟨{ s with players := updatePlayer s.players data.targetId (fun p => { p with health := target.health - applyShield target.inventory (baseDamage data.weapon) }) }, ?_, ?_⟩
    · simp [attack, hA, hSafeA, hT, hSafeT, hlive]
    · show (s.players.map fun a =>
          if a.id == data.targetId then { a with health := target.health - applyShield target.inventory (baseDamage data.weapon) }
          else a).find? (fun a => a.id == data.targetId) = _
      rw [find?_update_key Player.id s.players data.targetId
        (fun a => { a with health := target.health - applyShield target.inventory (baseDamage data.weapon) })
        (fun q => rfl)]
      rw [show s.players.find? (fun a => a.id == data.targetId) =
        some target from hT]
      rfl
  · intro hdead
    simp [attack, hA, hSafeA, hT, hSafeT, hdead]

/-- Witness for C5 amended, the end-to-end shield scenario: target b
with inventory [Shield defense 5] attacked with weapon.damage 10 loses
exactly 5 health, ending at 95. -/
theorem attack_damage_amended_witness :
    findPlayer witStateC5 "b" =
      some { playerB with inventory := [shieldItem] } ∧
    applyShield [shieldItem] (baseDamage (some { damage := some 10 })) = 5 ∧
    (∃ s2, attack witStateC5 "a"
        { targetId := "b", weapon := some { damage := some 10 } } "RC" =
          some (s2, [Emit.broadcast (GEvent.playerDamaged "b" 95)]) ∧
      findPlayer s2 "b" =
        some { playerB with inventory := [shieldItem], health := 95 }) :=
  ⟨rfl, rfl,
   (attack_damage_amended witStateC5 "a"
     { targetId := "b", weapon := some { damage := some 10 } } "RC"
     basePlayer { playerB with inventory := [shieldItem] }
     rfl (by decide) rfl (by decide)).1 (by decide)⟩


/-- C6 counterexample: the claim lets the enemy strike once at least 1
second has elapsed since its last attack, but the source requires
strictly more than 1000 ms (`Date.now() - enemy.attackCooldown > 1000`):
with exactly 1000 ms elapsed, a chasing enemy standing on its target
deals no damage and nothing changes. -/
theorem enemy_melee_cooldown_cex :
    cexEnemyC6.attackCooldown = some 5000 ∧
    (6000 : Int) - 5000 = 1000 ∧
    cexEnemyC6.targetPlayerId = some "a" ∧
    distSq cexEnemyC6.x cexEnemyC6.y basePlayer.x basePlayer.y < 2500 ∧
    enemyAttackPhase cexEnemyC6 [basePlayer] 6000 =
      (cexEnemyC6, [basePlayer], []) :=
  ⟨rfl, rfl, rfl, by decide, rfl⟩

/-- C6 amended: on a tick where an enemy is chasing a live target
within 50 units and strictly more than 1 second (or never) since its
last attack, it deals a flat 10 damage reduced by any shield in the
target inventory and floored at 0, with no safe-zone check — the
theorem puts no constraint on the target position, and the witness
stands inside the safe zone; lethal damage removes the player record
and force-disconnects the connection exactly as a player kill does. -/
theorem enemy_melee_amended (e : Enemy) (ps : List Player) (now : Int)
    (tid : String) (target : Player)
    (hT : e.targetPlayerId = some tid)
    (hF : ps.find? (fun p => p.id == tid) = some target)
    (hdist : distSq e.x e.y target.x target.y < 2500)
    (hcd : cooldownOK e now = true) :
    (¬ target.health - applyShield target.inventory 10 ≤ 0 →
      enemyAttackPhase e ps now =
        ({ e with attackCooldown := some now },
         updatePlayer ps tid (fun p => { p with health := target.health - applyShield target.inventory 10 }),
         [Emit.broadcast (GEvent.enemyAttack e.id),
          Emit.toConn tid (GEvent.playerDamaged tid
            (target.health - applyShield target.inventory 10))])) ∧
    (target.health - applyShield target.inventory 10 ≤ 0 →
      enemyAttackPhase e ps now =
        ({ e with attackCooldown := some now }, removePlayer ps tid,
         [Emit.broadcast (GEvent.enemyAttack e.id),
          Emit.broadcast (GEvent.playerKilled tid),
          Emit.broadcast (GEvent.playerDisconnected tid),
          Emit.forceDisconnect tid])) := by
  constructor
  · intro hlive
    simp [enemyAttackPhase, hT, hF, hdist, hcd, hlive]
  · intro hdead
    simp [enemyAttackPhase, hT, hF, hdist, hcd, hdead]

/-- Witness for C6 amended: the enemy stands on its target at
(2000, 2000), inside the safe zone, with a clear cooldown; the target
still loses the full 10 health. -/
theorem enemy_melee_amended_witness :
    isInSafeZone safePlayer.x safePlayer.y = true ∧
    witEnemyC6.targetPlayerId = some "a" ∧
    witEnemyC6.attackCooldown = none ∧
    cooldownOK witEnemyC6 777 = true ∧
    (enemyAttackPhase witEnemyC6 [safePlayer] 777).2.1 =
      [{ safePlayer with health := 90 }] := by
  refine ⟨by decide, rfl, rfl, rfl, ?_⟩
  rw [(enemy_melee_amended witEnemyC6 [safePlayer] 777 "a" safePlayer
    rfl rfl (by decide) rfl).1 (by decide)]
  rfl


/-- C2 counterexample: on the stale-slot failure path the handler
notifies both parties but the claim additionally requires the
PendingTrade to be cleared; the source has no
`delete sender.pendingTrade` on that path, so the offer survives. -/
theorem acceptTrade_not_cleared_cex :
    (findPlayer cexStateC2 "a").map Player.pendingTrade =
      some (some cexTradeOffer) ∧
    acceptTrade cexStateC2 "b" "a" =
      (cexStateC2,
       [Emit.toConn "a"
          (GEvent.tradeError "Trade failed. Items no longer available."),
        Emit.toConn "b"
          (GEvent.tradeError "Trade failed. Items no longer available.")]) ∧
    (findPlayer (acceptTrade cexStateC2 "b" "a").1 "a").map
      Player.pendingTrade = some (some cexTradeOffer) :=
  ⟨rfl, rfl, rfl⟩

/-- C2 amended: for a matching PendingTrade, acceptTrade either swaps
the two slots in place and clears the offer (both parties notified with
their new inventories), or — when either slot no longer resolves —
leaves the whole state unchanged, notifies both parties of the failure,
and RETAINS the PendingTrade (the source does not clear it on failure);
no partial swap is observable either way. -/
theorem acceptTrade_amended (s : ServerState) (recipientId senderId : String)
    (sender recipient : Player) (pt : PendingTrade)
    (hS : findPlayer s senderId = some sender)
    (hR : findPlayer s recipientId = some recipient)
    (hPT : sender.pendingTrade = some pt)
    (hRec : pt.recipientId = recipientId) :
    (∀ offered requested,
      getSlot sender.inventory pt.offeredItemIndex = some offered →
      getSlot recipient.inventory pt.requestedItemIndex = some requested →
      senderId ≠ recipientId →
      ∃ s3 evs, acceptTrade s recipientId senderId = (s3, evs) ∧
        findPlayer s3 senderId =
          some { sender with inventory := setSlot sender.inventory pt.offeredItemIndex requested, pendingTrade := none } ∧
        findPlayer s3 recipientId =
          some { recipient with inventory := setSlot recipient.inventory pt.requestedItemIndex offered } ∧
        evs = [Emit.toConn senderId (GEvent.tradeSuccess
                (setSlot sender.inventory pt.offeredItemIndex requested)),
               Emit.toConn recipientId (GEvent.tradeSuccess
                (setSlot recipient.inventory pt.requestedItemIndex offered))]) ∧
    ((getSlot sender.inventory pt.offeredItemIndex = none ∨
      getSlot recipient.inventory pt.requestedItemIndex = none) →
      acceptTrade s recipientId senderId =
        (s, [Emit.toConn senderId
              (GEvent.tradeError "Trade failed. Items no longer available."),
             Emit.toConn recipientId
              (GEvent.tradeError "Trade failed. Items no longer available.")])) := by
  have hRecB : (pt.recipientId == recipientId) = true := beq_iff_eq.mpr hRec
  constructor
  · intro offered requested hOff hReq hne
    refine ⟨(acceptTrade s recipientId senderId).1,
      (acceptTrade s recipientId senderId).2, rfl, ?_, ?_, ?_⟩
    · simp only [acceptTrade, hS, hR, hPT, hRecB, if_true, hOff, hReq]
      show (updatePlayer (updatePlayer (updatePlayer s.players senderId (fun p => { p with inventory := setSlot p.inventory pt.offeredItemIndex requested })) recipientId (fun p => { p with inventory := setSlot p.inventory pt.requestedItemIndex offered })) senderId (fun p => { p with pendingTrade := none })).find? (fun a => a.id == senderId) = _
      simp only [updatePlayer]
      rw [find?_update_key Player.id _ senderId
        (fun p => { p with pendingTrade := none }) (fun q => rfl)]
      rw [find?_update_key_ne Player.id _ recipientId senderId
        (fun p => { p with inventory := setSlot p.inventory pt.requestedItemIndex offered })
        (fun q => rfl) hne]
      rw [find?_update_key Player.id s.players senderId
        (fun p => { p with inventory := setSlot p.inventory pt.offeredItemIndex requested })
        (fun q => rfl)]
      rw [show s.players.find? (fun a => a.id == senderId) =
        some sender from hS]
      rfl
    · simp only [acceptTrade, hS, hR, hPT, hRecB, if_true, hOff, hReq]
      show (updatePlayer (updatePlayer (updatePlayer s.players senderId (fun p => { p with inventory := setSlot p.inventory pt.offeredItemIndex requested })) recipientId (fun p => { p with inventory := setSlot p.inventory pt.requestedItemIndex offered })) senderId (fun p => { p with pendingTrade := none })).find? (fun a => a.id == recipientId) = _
      simp only [updatePlayer]
      rw [find?_update_key_ne Player.id _ senderId recipientId
        (fun p => { p with pendingTrade := none }) (fun q => rfl)
        (fun h => hne h.symm)]
      rw [find?_update_key Player.id _ recipientId
        (fun p => { p with inventory := setSlot p.inventory pt.requestedItemIndex offered })
        (fun q => rfl)]
      rw [find?_update_key_ne Player.id s.players senderId recipientId
        (fun p => { p with inventory := setSlot p.inventory pt.offeredItemIndex requested })
        (fun q => rfl) (fun h => hne h.symm)]
      rw [show s.players.find? (fun a => a.id == recipientId) =
        some recipient from hR]
      rfl
    · simp only [acceptTrade, hS, hR, hPT, hRecB, if_true, hOff, hReq]
      have hfS : (updatePlayer (updatePlayer s.players senderId (fun p => { p with inventory := setSlot p.inventory pt.offeredItemIndex requested })) recipientId (fun p => { p with inventory := setSlot p.inventory pt.requestedItemIndex offered })).find? (fun a => a.id == senderId) = some { sender with inventory := setSlot sender.inventory pt.offeredItemIndex requested } := by
        simp only [updatePlayer]
        rw [find?_update_key_ne Player.id _ recipientId senderId
          (fun p => { p with inventory := setSlot p.inventory pt.requestedItemIndex offered })
          (fun q => rfl) hne]
        rw [find?_update_key Player.id s.players senderId
          (fun p => { p with inventory := setSlot p.inventory pt.offeredItemIndex requested })
          (fun q => rfl)]
        rw [show s.players.find? (fun a => a.id == senderId) =
          some sender from hS]
        rfl
      have hfR : (updatePlayer (updatePlayer s.players senderId (fun p => { p with inventory := setSlot p.inventory pt.offeredItemIndex requested })) recipientId (fun p => { p with inventory := setSlot p.inventory pt.requestedItemIndex offered })).find? (fun a => a.id == recipientId) = some { recipient with inventory := setSlot recipient.inventory pt.requestedItemIndex offered } := by
        simp only [updatePlayer]
        rw [find?_update_key Player.id _ recipientId
          (fun p => { p with inventory := setSlot p.inventory pt.requestedItemIndex offered })
          (fun q => rfl)]
        rw [find?_update_key_ne Player.id s.players senderId recipientId
          (fun p => { p with inventory := setSlot p.inventory pt.offeredItemIndex requested })
          (fun q => rfl) (fun h => hne h.symm)]
        rw [show s.players.find? (fun a => a.id == recipientId) =
          some recipient from hR]
        rfl
      simp [invOf, findPlayer, hfS, hfR]
  · intro hfail
    rcases hfail with hOffN | hReqN
    · cases hReq2 : getSlot recipient.inventory pt.requestedItemIndex with
      | none => simp [acceptTrade, hS, hR, hPT, hRecB, hOffN, hReq2]
      | some r2 => simp [acceptTrade, hS, hR, hPT, hRecB, hOffN, hReq2]
    · cases hOff2 : getSlot sender.inventory pt.offeredItemIndex with
      | none => simp [acceptTrade, hS, hR, hPT, hRecB, hOff2, hReqN]
      | some o2 => simp [acceptTrade, hS, hR, hPT, hRecB, hOff2, hReqN]

/-- Witness for C2 amended at a concrete state: the sword in slot 0 of
sender a and the shield in slot 0 of recipient b swap, the offer is
cleared, and both parties get their new inventories. -/
theorem acceptTrade_amended_witness :
    findPlayer witStateC2 "a" = some { basePlayer with inventory := [swordItem], pendingTrade := some cexTradeOffer } ∧
    ∃ s3 evs, acceptTrade witStateC2 "b" "a" = (s3, evs) ∧
      findPlayer s3 "a" = some { basePlayer with inventory := [shieldItem] } ∧
      findPlayer s3 "b" = some { playerB with inventory := [swordItem] } ∧
      evs = [Emit.toConn "a" (GEvent.tradeSuccess [shieldItem]),
             Emit.toConn "b" (GEvent.tradeSuccess [swordItem])] :=
  ⟨rfl,
   (acceptTrade_amended witStateC2 "b" "a"
     { basePlayer with inventory := [swordItem], pendingTrade := some cexTradeOffer }
     { playerB with inventory := [shieldItem] } cexTradeOffer
     rfl rfl rfl rfl).1 swordItem shieldItem rfl rfl (by decide)⟩


/-- C1 counterexample: killing player b, who carries item0, deletes the
whole player record including the inventory: the item id afterwards
appears in neither the world item set nor any inventory, refuting the
claim that no operation ever destroys an item. -/
theorem item_conservation_cex :
    itemCount cexStateC1 "item0" = 1 ∧
    (attack cexStateC1 "a"
        { targetId := "b", weapon := some { damage := some 10 } }
        "RC").map (fun r => itemCount r.1 "item0") = some 0 :=
  ⟨rfl, rfl⟩

/-- C1 amended: every item id count (across the world set and all
inventories) is preserved by pickupItem and by a successful acceptTrade
swap; but attack-induced player death and disconnect delete the whole
player record, destroying exactly the items carried by the dead player
(the count drops by the occurrences in that inventory). -/
theorem item_conservation_amended :
    (∀ (s : ServerState) (sid iid : String) (p : Player) (it : Item)
       (s2 : ServerState) (evs : List Emit),
      (s.players.map Player.id).Nodup →
      (s.items.map Item.id).Nodup →
      findPlayer s sid = some p →
      findItem s iid = some it →
      pickupItem s sid iid = some (s2, evs) →
      ∀ jid, itemCount s2 jid = itemCount s jid) ∧
    (∀ (s : ServerState) (recipientId senderId : String)
       (sender recipient : Player) (pt : PendingTrade)
       (offered requested : Item),
      (s.players.map Player.id).Nodup →
      findPlayer s senderId = some sender →
      findPlayer s recipientId = some recipient →
      sender.pendingTrade = some pt →
      pt.recipientId = recipientId →
      getSlot sender.inventory pt.offeredItemIndex = some offered →
      getSlot recipient.inventory pt.requestedItemIndex = some requested →
      ∀ jid, itemCount (acceptTrade s recipientId senderId).1 jid =
        itemCount s jid) ∧
    (∀ (s : ServerState) (sid : String) (data : AttackPayload)
       (code : String) (attacker target : Player) (s2 : ServerState)
       (evs : List Emit),
      (s.players.map Player.id).Nodup →
      findPlayer s sid = some attacker →
      isInSafeZone attacker.x attacker.y = false →
      findPlayer s data.targetId = some target →
      isInSafeZone target.x target.y = false →
      target.health - applyShield target.inventory (baseDamage data.weapon) ≤ 0 →
      attack s sid data code = some (s2, evs) →
      ∀ jid, itemCount s2 jid + countId target.inventory jid =
        itemCount s jid) ∧
    (∀ (s : ServerState) (sid : String) (p : Player),
      (s.players.map Player.id).Nodup →
      findPlayer s sid = some p →
      ∀ jid, itemCount (handleDisconnect s sid).1 jid +
        countId p.inventory jid = itemCount s jid) := by
  refine ⟨?_, ?_, ?_, ?_⟩
  · -- pickup conserves every count
    intro s sid iid p it s2 evs hndP hndI hp hi hPick jid
    have hit : it.id = iid := (find?_id_eq Item.id s.items iid it hi).1
    simp [pickupItem, hi, hp] at hPick
    obtain ⟨rfl, rfl⟩ := hPick
    simp only [itemCount]
    have hsumP : (List.map (fun q => countId q.inventory jid) (updatePlayer s.players sid (fun a => { a with inventory := a.inventory ++ [it] }))).sum + countId p.inventory jid = (List.map (fun q => countId q.inventory jid) s.players).sum + countId (p.inventory ++ [it]) jid :=
      sum_map_update_key Player.id (fun q => countId q.inventory jid) s.players sid (fun a => { a with inventory := a.inventory ++ [it] }) p hp hndP
    have happ : countId (p.inventory ++ [it]) jid = countId p.inventory jid + ((if it.id == jid then 1 else 0) + countId ([] : List Item) jid) := by
      rw [countId_append, countId_cons]
    have hnil : countId ([] : List Item) jid = 0 := rfl
    have hone : countId s.items iid = 1 := countId_one s.items iid it hi hndI
    by_cases hj : jid = iid
    · subst hj
      have hbj : (it.id == jid) = true := beq_iff_eq.mpr hit
      simp only [hbj, if_true] at happ
      have hval : countId (removeItem s.items jid) jid = 0 := by
        rw [countId_removeItem]
        simp
      omega
    · have hbj : (it.id == jid) = false :=
        beq_eq_false_iff_ne.mpr (fun hq => hj (by rw [← hq]; exact hit))
      simp only [hbj, Bool.false_eq_true, if_false] at happ
      have hval : countId (removeItem s.items iid) jid = countId s.items jid := by
        rw [countId_removeItem]
        simp [hj]
      omega
  · -- successful trade swap conserves every count
    intro s recipientId senderId sender recipient pt offered requested hndP hS hR hPT hRec hOff hReq jid
    have hRecB : (pt.recipientId == recipientId) = true := beq_iff_eq.mpr hRec
    obtain ⟨hiNeg, hiGet⟩ := getSlot_bounds sender.inventory pt.offeredItemIndex offered hOff
    obtain ⟨hjNeg, hjGet⟩ := getSlot_bounds recipient.inventory pt.requestedItemIndex requested hReq
    have hc1 : countId (setSlot sender.inventory pt.offeredItemIndex requested) jid + (if offered.id == jid then 1 else 0) = countId sender.inventory jid + (if requested.id == jid then 1 else 0) := by
      rw [setSlot_eq sender.inventory pt.offeredItemIndex offered requested hOff]
      exact countId_set sender.inventory pt.offeredItemIndex.toNat offered requested jid hiGet
    have hNd1 : ((updatePlayer s.players senderId (fun p => { p with inventory := setSlot p.inventory pt.offeredItemIndex requested })).map Player.id).Nodup := by
      rw [show (updatePlayer s.players senderId (fun p => { p with inventory := setSlot p.inventory pt.offeredItemIndex requested })).map Player.id = s.players.map Player.id from map_key_update_key Player.id s.players senderId (fun p => { p with inventory := setSlot p.inventory pt.offeredItemIndex requested }) (fun q => rfl)]
      exact hndP
    have hsum1 : (List.map (fun q => countId q.inventory jid) (updatePlayer s.players senderId (fun p => { p with inventory := setSlot p.inventory pt.offeredItemIndex requested }))).sum + countId sender.inventory jid = (List.map (fun q => countId q.inventory jid) s.players).sum + countId (setSlot sender.inventory pt.offeredItemIndex requested) jid :=
      sum_map_update_key Player.id (fun q => countId q.inventory jid) s.players senderId (fun p => { p with inventory := setSlot p.inventory pt.offeredItemIndex requested }) sender hS hndP
    by_cases hsr : senderId = recipientId
    · -- the sender trades with itself: both updates hit the same record
      subst hsr
      have hrs : sender = recipient := by
        rw [hS] at hR
        exact Option.some.inj hR
      subst hrs
      have hget2 : getSlot (setSlot sender.inventory pt.offeredItemIndex requested) pt.requestedItemIndex = some requested :=
        getSlot_setSlot_other sender.inventory pt.offeredItemIndex pt.requestedItemIndex offered requested hOff hReq
      obtain ⟨hj2Neg, hj2Get⟩ := getSlot_bounds (setSlot sender.inventory pt.offeredItemIndex requested) pt.requestedItemIndex requested hget2
      have hc2 : countId (setSlot (setSlot sender.inventory pt.offeredItemIndex requested) pt.requestedItemIndex offered) jid + (if requested.id == jid then 1 else 0) = countId (setSlot sender.inventory pt.offeredItemIndex requested) jid + (if offered.id == jid then 1 else 0) := by
        rw [setSlot_eq (setSlot sender.inventory pt.offeredItemIndex requested) pt.requestedItemIndex requested offered hget2]
        exact countId_set (setSlot sender.inventory pt.offeredItemIndex requested) pt.requestedItemIndex.toNat requested offered jid hj2Get
      have hF1 : (updatePlayer s.players senderId (fun p => { p with inventory := setSlot p.inventory pt.offeredItemIndex requested })).find? (fun a => a.id == senderId) = some { sender with inventory := (setSlot sender.inventory pt.offeredItemIndex requested) } := by
        have h := find?_update_key Player.id s.players senderId (fun p => { p with inventory := setSlot p.inventory pt.offeredItemIndex requested }) (fun q => rfl)
        rw [show s.players.find? (fun a => a.id == senderId) = some sender from hS] at h
        exact h
      have hsum2 : (List.map (fun q => countId q.inventory jid) (updatePlayer (updatePlayer s.players senderId (fun p => { p with inventory := setSlot p.inventory pt.offeredItemIndex requested })) senderId (fun p => { p with inventory := setSlot p.inventory pt.requestedItemIndex offered }))).sum + countId (setSlot sender.inventory pt.offeredItemIndex requested) jid = (List.map (fun q => countId q.inventory jid) (updatePlayer s.players senderId (fun p => { p with inventory := setSlot p.inventory pt.offeredItemIndex requested }))).sum + countId (setSlot (setSlot sender.inventory pt.offeredItemIndex requested) pt.requestedItemIndex offered) jid :=
        sum_map_update_key Player.id (fun q => countId q.inventory jid) (updatePlayer s.players senderId (fun p => { p with inventory := setSlot p.inventory pt.offeredItemIndex requested })) senderId (fun p => { p with inventory := setSlot p.inventory pt.requestedItemIndex offered }) { sender with inventory := (setSlot sender.inventory pt.offeredItemIndex requested) } hF1 hNd1
      have hsum3 : (List.map (fun q => countId q.inventory jid) (updatePlayer (updatePlayer (updatePlayer s.players senderId (fun p => { p with inventory := setSlot p.inventory pt.offeredItemIndex requested })) senderId (fun p => { p with inventory := setSlot p.inventory pt.requestedItemIndex offered })) senderId (fun p => { p with pendingTrade := none }))).sum = (List.map (fun q => countId q.inventory jid) (updatePlayer (updatePlayer s.players senderId (fun p => { p with inventory := setSlot p.inventory pt.offeredItemIndex requested })) senderId (fun p => { p with inventory := setSlot p.inventory pt.requestedItemIndex offered }))).sum :=
        sum_map_update_key_pres Player.id (fun q => countId q.inventory jid) (updatePlayer (updatePlayer s.players senderId (fun p => { p with inventory := setSlot p.inventory pt.offeredItemIndex requested })) senderId (fun p => { p with inventory := setSlot p.inventory pt.requestedItemIndex offered })) senderId (fun p => { p with pendingTrade := none }) (fun a => rfl)
      simp only [acceptTrade, hS, hPT, hRecB, if_true, hOff, hReq, itemCount]
      omega
    · -- distinct parties
      have hF1ne : (updatePlayer s.players senderId (fun p => { p with inventory := setSlot p.inventory pt.offeredItemIndex requested })).find? (fun a => a.id == recipientId) = some recipient := by
        have h := find?_update_key_ne Player.id s.players senderId recipientId (fun p => { p with inventory := setSlot p.inventory pt.offeredItemIndex requested }) (fun q => rfl) (fun hx => hsr hx.symm)
        rw [show s.players.find? (fun a => a.id == recipientId) = some recipient from hR] at h
        exact h
      have hc2 : countId (setSlot recipient.inventory pt.requestedItemIndex offered) jid + (if requested.id == jid then 1 else 0) = countId recipient.inventory jid + (if offered.id == jid then 1 else 0) := by
        rw [setSlot_eq recipient.inventory pt.requestedItemIndex requested offered hReq]
        exact countId_set recipient.inventory pt.requestedItemIndex.toNat requested offered jid hjGet
      have hsum2 : (List.map (fun q => countId q.inventory jid) (updatePlayer (updatePlayer s.players senderId (fun p => { p with inventory := setSlot p.inventory pt.offeredItemIndex requested })) recipientId (fun p => { p with inventory := setSlot p.inventory pt.requestedItemIndex offered }))).sum + countId recipient.inventory jid = (List.map (fun q => countId q.inventory jid) (updatePlayer s.players senderId (fun p => { p with inventory := setSlot p.inventory pt.offeredItemIndex requested }))).sum + countId (setSlot recipient.inventory pt.requestedItemIndex offered) jid :=
        sum_map_update_key Player.id (fun q => countId q.inventory jid) (updatePlayer s.players senderId (fun p => { p with inventory := setSlot p.inventory pt.offeredItemIndex requested })) recipientId (fun p => { p with inventory := setSlot p.inventory pt.requestedItemIndex offered }) recipient hF1ne hNd1
      have hsum3 : (List.map (fun q => countId q.inventory jid) (updatePlayer (updatePlayer (updatePlayer s.players senderId (fun p => { p with inventory := setSlot p.inventory pt.offeredItemIndex requested })) recipientId (fun p => { p with inventory := setSlot p.inventory pt.requestedItemIndex offered })) senderId (fun p => { p with pendingTrade := none }))).sum = (List.map (fun q => countId q.inventory jid) (updatePlayer (updatePlayer s.players senderId (fun p => { p with inventory := setSlot p.inventory pt.offeredItemIndex requested })) recipientId (fun p => { p with inventory := setSlot p.inventory pt.requestedItemIndex offered }))).sum :=
        sum_map_update_key_pres Player.id (fun q => countId q.inventory jid) (updatePlayer (updatePlayer s.players senderId (fun p => { p with inventory := setSlot p.inventory pt.offeredItemIndex requested })) recipientId (fun p => { p with inventory := setSlot p.inventory pt.requestedItemIndex offered })) senderId (fun p => { p with pendingTrade := none }) (fun a => rfl)
      simp only [acceptTrade, hS, hR, hPT, hRecB, if_true, hOff, hReq, itemCount]
      omega
  · -- a lethal attack destroys exactly the items carried by the dead player
    intro s sid data code attacker target s2 evs hndP hA hSz hT hTSz hdead hAtk jid
    simp [attack, hA, hSz, hT, hTSz, hdead] at hAtk
    obtain ⟨rfl, rfl⟩ := hAtk
    simp only [itemCount]
    have hsum : (List.map (fun q => countId q.inventory jid) (removePlayer s.players data.targetId)).sum + countId target.inventory jid = (List.map (fun q => countId q.inventory jid) s.players).sum :=
      sum_map_remove_key Player.id (fun q => countId q.inventory jid) s.players data.targetId target hT hndP
    omega
  · -- disconnect destroys exactly the items carried by the departing player
    intro s sid p hndP hp jid
    simp only [handleDisconnect, itemCount]
    have hsum : (List.map (fun q => countId q.inventory jid) (removePlayer s.players sid)).sum + countId p.inventory jid = (List.map (fun q => countId q.inventory jid) s.players).sum :=
      sum_map_remove_key Player.id (fun q => countId q.inventory jid) s.players sid p hp hndP
    omega

/-- Witness for C1 amended at concrete states: a pickup and a trade
preserve the count of item0, while an attack kill and a disconnect of
the sword carrier each drop it by the one carried occurrence. -/
theorem item_conservation_amended_witness :
    itemCount witStateC10 "item0" = 1 ∧
    itemCount { players := [{ basePlayer with inventory := [farItem] }], items := [], enemies := ([] : List Enemy) } "item0" = itemCount witStateC10 "item0" ∧
    itemCount (acceptTrade witStateC2 "b" "a").1 "item0" = itemCount witStateC2 "item0" ∧
    itemCount { players := [basePlayer], items := [], enemies := ([] : List Enemy) } "item0" + countId [swordItem] "item0" = itemCount cexStateC1 "item0" ∧
    itemCount (handleDisconnect cexStateC1 "b").1 "item0" + countId [swordItem] "item0" = itemCount cexStateC1 "item0" := by
  refine ⟨rfl, ?_, ?_, ?_, ?_⟩
  · exact item_conservation_amended.1 witStateC10 "a" "item0" basePlayer farItem
      { players := [{ basePlayer with inventory := [farItem] }], items := [], enemies := [] }
      [Emit.broadcast (GEvent.itemPickedUp "a" "item0" farItem)]
      (by decide) (by decide) rfl rfl rfl "item0"
  · exact item_conservation_amended.2.1 witStateC2 "b" "a"
      { basePlayer with inventory := [swordItem], pendingTrade := some cexTradeOffer }
      { playerB with inventory := [shieldItem] } cexTradeOffer swordItem shieldItem
      (by decide) rfl rfl rfl rfl rfl rfl "item0"
  · exact item_conservation_amended.2.2.1 cexStateC1 "a"
      { targetId := "b", weapon := some { damage := some 10 } } "RC"
      basePlayer { playerB with health := 5, inventory := [swordItem] }
      { players := [basePlayer], items := [], enemies := [] }
      [Emit.broadcast (GEvent.playerKilled "b"),
       Emit.toConn "b" (GEvent.playerDamaged "b" 0),
       Emit.broadcast (GEvent.playerDisconnected "b"),
       Emit.forceDisconnect "b"]
      (by decide) rfl (by decide) rfl (by decide) (by decide) rfl "item0"
  · exact item_conservation_amended.2.2.2 cexStateC1 "b"
      { playerB with health := 5, inventory := [swordItem] }
      (by decide) rfl "item0"

end ChatGame
